import Mathlib

/-! NetCloud: a shallow embedding of the client session `client/NetCloud.cpp`
and of the server handler `src/handle_fileexists.cpp`.

The C++ client is translated function by function.  Memory that the code treats
as raw bytes (`(unsigned char*)&pkt`) is a list of byte values; the transport
(`send`, `recv`, `socket`, `connect`, `closesocket`) is an explicit environment
whose answers are inputs of each operation and whose calls are recorded in an
event trace; `assert` is a process abort; a read or copy that leaves the
readable memory is a fault, after which nothing is returned; HMAC-SHA256 is an
arbitrary function `key → message → digest` passed as the parameter `hm`.
-/

namespace NetCloud

/-! ## Bytes, constants and packet layout -/

/-- Raw memory: a sequence of byte values. -/
abbrev Bytes := List Nat

/-- HMAC-SHA256 as used through OpenSSL: `hm key message` is the digest.  The
incremental interface (`HMAC_Init_ex`, `HMAC_Update`..., `HMAC_Final`) yields
the digest of the concatenation of the updates, so a context is the list of
bytes fed so far. -/
abbrev HmacFn := Bytes → Bytes → Bytes

/-- Length of an `HMAC_MD` array. -/
def HMAC_LEN : Nat := 32

/-- Length of a `Session_Key` array. -/
def SESSION_KEY_LEN : Nat := 32

/-- The value `INVALID_SOCKET` (winsock2.h: all bits set, as a 64-bit handle). -/
def INVALID_SOCKET : Nat := 2 ^ 64 - 1

/-- Modelled from the spec: the command codes of `netcloud/protocol.h`, which is
not among the sources.  The spec lists the codes without their values, so they
are parameters of the development. -/
structure Protocol where
  CMD_LOGIN : Nat
  CMD_AUTH : Nat
  CMD_AUTHRES : Nat
  CMD_WRITE : Nat
  CMD_READ : Nat
  CMD_EXISTS : Nat
  CMD_DELETE : Nat
  CMD_SIZE : Nat

/-- Modelled from the spec: object representation of an unsigned scalar field of
`w` bytes (`netcloud/protocol.h` is not among the sources; fields are taken
packed and little-endian, as on the client's platform). -/
def le (w : Nat) (n : Nat) : Bytes :=
  (List.range w).map (fun i => n / 256 ^ i % 256)

/-- Object representation of a signed 32-bit field (two's complement). -/
def le32s (v : Int) : Bytes := le 4 (v % 2 ^ 32).toNat

/-- Modelled from the spec: `Packet_Header` of `netcloud/protocol.h`,
`{ command, total_length: uint32, mac: byte[32] }`. -/
structure Packet_Header where
  cmd : Nat
  len : Nat
  hmac : Bytes
deriving DecidableEq

/-- Thirty-two zero bytes: the result of `memset(hdr.hmac, 0, HMAC_LEN)`. -/
def zeroMac : Bytes := List.replicate HMAC_LEN 0

/-- The bytes of a header in memory. -/
def Packet_Header.bytes (h : Packet_Header) : Bytes :=
  le 4 h.cmd ++ le 4 h.len ++ h.hmac

/-- The value of `sizeof(Packet_Header)`. -/
def sizeof_Packet_Header : Nat := 40

/-! ## Signing and verification (lines 26-72) -/

/-- `SignBytes(hmac, buf, len, session)`: the digest under `session` of the
first `len` bytes at `buf`. -/
def SignBytes (hm : HmacFn) (buf : Bytes) (len : Nat) (session : Bytes) : Bytes :=
  hm session (buf.take len)

/-- `CalculateHMAC(hmac, pkt, session)`: signs `pkt->len` bytes starting at the
header; `rest` is the memory that follows the header. -/
def CalculateHMAC (hm : HmacFn) (pkt : Packet_Header) (rest : Bytes)
    (session : Bytes) : Bytes :=
  SignBytes hm (pkt.bytes ++ rest) pkt.len session

/-- `CheckHMAC(pkt, session)`: saves the received MAC, zeroes the field,
recomputes the digest over `pkt->len` bytes and compares; the field is restored
afterwards, so only the boolean is returned.  `rest` is the readable memory
that follows the header: the rest of the packet object and what lies after it.
`pkt->len` comes from the packet itself and is not compared with the size of
the object, so `HMAC` may be told to read past the readable memory; the call
then faults and nothing is returned (`none`). -/
def CheckHMAC (hm : HmacFn) (pkt : Packet_Header) (rest : Bytes)
    (session : Bytes) : Option Bool :=
  let original := pkt.hmac
  let zeroed : Packet_Header := { pkt with hmac := zeroMac }
  if zeroed.len ≤ (zeroed.bytes ++ rest).length then
    let computed := hm session ((zeroed.bytes ++ rest).take zeroed.len)
    some (decide (computed = original))
  else none

/-- `AuthenticateServerPacket(packet, session)` for every packet type but
`Packet_Login`: `CheckHMAC(&packet.hdr, session)`. -/
def AuthenticateServerPacket (hm : HmacFn) (hdr : Packet_Header) (rest : Bytes)
    (session : Bytes) : Option Bool :=
  CheckHMAC hm hdr rest session

/-- `SignClientPacket(packet, session)` (generic template): zero the MAC field,
then store `CalculateHMAC` of the packet into it.  Returns the new header. -/
def SignClientPacket (hm : HmacFn) (hdr : Packet_Header) (rest : Bytes)
    (session : Bytes) : Packet_Header :=
  let zeroed : Packet_Header := { hdr with hmac := zeroMac }
  { zeroed with hmac := CalculateHMAC hm zeroed rest session }

/-! ## Packet structures (`netcloud/protocol.h`)

Each structure is a header followed by its own fields; `body` is the object
representation of those fields and `sizeof_*` the size of the whole structure. -/

/-- Modelled from the spec: `Packet_Login`, carrying user id and app id. -/
structure Packet_Login where
  hdr : Packet_Header
  userID : Nat
  appID : Nat

/-- The bytes of the fields after the header. -/
def Packet_Login.body (p : Packet_Login) : Bytes := le 8 p.userID ++ le 4 p.appID

/-- The value of `sizeof(Packet_Login)`. -/
def sizeof_Packet_Login : Nat := sizeof_Packet_Header + 12

/-- Modelled from the spec: `Packet_Auth_Challenge`, carrying the 64-byte shared
secret and the challenge bytes. -/
structure Packet_Auth_Challenge where
  hdr : Packet_Header
  shared : Bytes
  challenge : Bytes

/-- The value of `sizeof(Packet_Auth_Challenge)`. -/
def sizeof_Packet_Auth_Challenge : Nat := sizeof_Packet_Header + 64 + 32

/-- Modelled from the spec: `Packet_Auth_Answer`, carrying the signed challenge. -/
structure Packet_Auth_Answer where
  hdr : Packet_Header
  answer : Bytes

/-- The bytes of the fields after the header. -/
def Packet_Auth_Answer.body (p : Packet_Auth_Answer) : Bytes := p.answer

/-- The value of `sizeof(Packet_Auth_Answer)`. -/
def sizeof_Packet_Auth_Answer : Nat := sizeof_Packet_Header + HMAC_LEN

/-- Modelled from the spec: `Packet_Auth_Result`, carrying a success flag. -/
structure Packet_Auth_Result where
  hdr : Packet_Header
  result : Nat

/-- The bytes of the fields after the header. -/
def Packet_Auth_Result.body (p : Packet_Auth_Result) : Bytes := le 1 p.result

/-- The value of `sizeof(Packet_Auth_Result)`. -/
def sizeof_Packet_Auth_Result : Nat := sizeof_Packet_Header + 1

/-- Modelled from the spec: `Packet_File_Write`, followed on the wire by the file
name and the file contents. -/
structure Packet_File_Write where
  hdr : Packet_Header
  cubFileName : Nat
  cubFileContents : Nat

/-- The bytes of the fields after the header. -/
def Packet_File_Write.body (p : Packet_File_Write) : Bytes :=
  le 4 p.cubFileName ++ le 4 p.cubFileContents

/-- The value of `sizeof(Packet_File_Write)`. -/
def sizeof_Packet_File_Write : Nat := sizeof_Packet_Header + 8

/-- Modelled from the spec: `Packet_File_Write_Result`, carrying a result byte. -/
structure Packet_File_Write_Result where
  hdr : Packet_Header
  result : Nat

/-- The bytes of the fields after the header. -/
def Packet_File_Write_Result.body (p : Packet_File_Write_Result) : Bytes :=
  le 1 p.result

/-- The value of `sizeof(Packet_File_Write_Result)`. -/
def sizeof_Packet_File_Write_Result : Nat := sizeof_Packet_Header + 1

/-- Modelled from the spec: `Packet_File_Read`, followed on the wire by the file
name; `maxReadBytes` is the greatest number of bytes to return. -/
structure Packet_File_Read where
  hdr : Packet_Header
  cubFileName : Nat
  maxReadBytes : Int

/-- The bytes of the fields after the header. -/
def Packet_File_Read.body (p : Packet_File_Read) : Bytes :=
  le 4 p.cubFileName ++ le32s p.maxReadBytes

/-- The value of `sizeof(Packet_File_Read)`. -/
def sizeof_Packet_File_Read : Nat := sizeof_Packet_Header + 8

/-- Modelled from the spec: `Packet_File_Read_Result`, the header of a read
result; `readBytes` payload bytes follow on the wire. -/
structure Packet_File_Read_Result where
  hdr : Packet_Header
  readBytes : Int

/-- The bytes of the fields after the header. -/
def Packet_File_Read_Result.body (p : Packet_File_Read_Result) : Bytes :=
  le32s p.readBytes

/-- The value of `sizeof(Packet_File_Read_Result)`. -/
def sizeof_Packet_File_Read_Result : Nat := sizeof_Packet_Header + 4

/-- Modelled from the spec: `Packet_File_Generic_Path`, the request of the
exists, delete and size commands, followed on the wire by the file name. -/
structure Packet_File_Generic_Path where
  hdr : Packet_Header
  cubFileName : Nat

/-- The bytes of the fields after the header. -/
def Packet_File_Generic_Path.body (p : Packet_File_Generic_Path) : Bytes :=
  le 4 p.cubFileName

/-- The value of `sizeof(Packet_File_Generic_Path)`. -/
def sizeof_Packet_File_Generic_Path : Nat := sizeof_Packet_Header + 4

/-- Modelled from the spec: `Packet_General_Result`, carrying a status byte. -/
structure Packet_General_Result where
  hdr : Packet_Header
  result : Nat

/-- The bytes of the fields after the header. -/
def Packet_General_Result.body (p : Packet_General_Result) : Bytes := le 1 p.result

/-- The value of `sizeof(Packet_General_Result)`. -/
def sizeof_Packet_General_Result : Nat := sizeof_Packet_Header + 1

/-- Modelled from the spec: `Packet_File_Size_Result`, carrying the file length. -/
structure Packet_File_Size_Result where
  hdr : Packet_Header
  fileLength : Int

/-- The bytes of the fields after the header. -/
def Packet_File_Size_Result.body (p : Packet_File_Size_Result) : Bytes :=
  le32s p.fileLength

/-- The value of `sizeof(Packet_File_Size_Result)`. -/
def sizeof_Packet_File_Size_Result : Nat := sizeof_Packet_Header + 4

/-! ## Session state, results and the transport -/

/-- The states of the client (`enum class NCState`). -/
inductive NCState where
  | LoggedOut
  | SentLogin
  | AnswerSent
  | Operation
deriving DecidableEq

/-- The results used by the client (`NetCloudResult` of `NetCloud.h`). -/
inductive NetCloudResult where
  | OK
  | Network
  | Unauthorized
  | Fail
deriving DecidableEq

/-- The heap state of `m_pchKey`: null, pointing to a live copy of the user key,
or dangling after `delete[]` (the pointer itself keeps its value). -/
inductive KeyPtr where
  | null
  | live (key : Bytes)
  | freed
deriving DecidableEq

/-- The data members of `CNetCloudSession`. -/
structure Session where
  m_hSocket : Nat
  m_pchKey : KeyPtr
  m_iUserID : Nat
  m_sessionKey : Bytes
  m_state : NCState
deriving DecidableEq

/-- The session built by the constructor. -/
def Session.new (key : Bytes) : Session :=
  { m_hSocket := INVALID_SOCKET, m_pchKey := KeyPtr.null, m_iUserID := 0,
    m_sessionKey := key, m_state := NCState.LoggedOut }

/-- A call made on the transport. -/
inductive NetEvent where
  | socket (h : Nat)
  | connect (h : Nat)
  | closesocket (h : Nat)
  | send (h : Nat) (data : Bytes)
  | recv (h : Nat) (max : Nat)
deriving DecidableEq

/-- How a call of a member function ends: it returns `res` leaving the session
`s` and the caller's output arguments `out`; or the process is aborted by a
failed `assert`; or the call faults with nothing returned (a `delete[]` of a
dangling pointer, a read past the readable memory); or the receive loop has
not finished within the given number of iterations. -/
inductive Run (α : Type) where
  | done (res : NetCloudResult) (s : Session) (out : α)
  | aborted
  | undefined
  | outOfFuel
deriving DecidableEq

/-- How a helper of the session ends: it returns `res`, or it is aborted by a
failed `assert`, or it faults. -/
inductive CallEnd where
  | ret (res : NetCloudResult)
  | aborted
  | undefined
deriving DecidableEq

/-- A run together with the transport calls it made, in order. -/
structure Exec (α : Type) where
  trace : List NetEvent
  run : Run α
deriving DecidableEq

/-! ## Login (lines 135-231) -/

/-- One `addrinfo` entry as the environment answers it: the handle returned by
`socket` and whether `connect` succeeds. -/
structure Candidate where
  handle : Nat
  connects : Bool

/-- What the environment answers during `Login`: whether `getaddrinfo`
succeeds, the address list, and the memory of `pktChallenge` and `pktResult`
after their `recv` (whose return values the code ignores); `beyond` is the
readable memory that follows `pktResult`. -/
structure LoginEnv where
  resolves : Bool
  addrs : List Candidate
  challenge : Packet_Auth_Challenge
  result : Packet_Auth_Result
  beyond : Bytes

/-- The connection loop of lines 158-172.  Returns the value of `m_hSocket`
after the loop, whether the function returned from inside the loop (a failed
`socket`), and the transport calls. -/
def connectLoop : List Candidate → Nat → List NetEvent → Nat × Bool × List NetEvent
  | [], h, tr => (h, false, tr)
  | c :: cs, _, tr =>
    if c.handle = INVALID_SOCKET then
      (c.handle, true, tr ++ [NetEvent.socket c.handle])
    else if c.connects then
      (c.handle, false, tr ++ [NetEvent.socket c.handle, NetEvent.connect c.handle])
    else
      connectLoop cs INVALID_SOCKET
        (tr ++ [NetEvent.socket c.handle, NetEvent.connect c.handle,
                NetEvent.closesocket c.handle])

/-- `CreateSessionKey(session, shared, userKey)`: the digest of the 64 shared
bytes under the user key. -/
def CreateSessionKey (hm : HmacFn) (shared : Bytes) (userKey : Bytes) : Bytes :=
  hm userKey (shared.take 64)

/-- `CNetCloudSession::Login`. -/
def Login (P : Protocol) (hm : HmacFn) (s : Session) (userID : Nat)
    (userKey : Bytes) (appID : Nat) (env : LoginEnv) : Exec Unit :=
  if s.m_state ≠ NCState.LoggedOut then ⟨[], Run.aborted⟩
  else if !env.resolves then ⟨[], Run.done NetCloudResult.Network s ()⟩
  else
    let (h, early, tr) := connectLoop env.addrs s.m_hSocket []
    if early then ⟨tr, Run.done NetCloudResult.Network { s with m_hSocket := h } ()⟩
    else if h = INVALID_SOCKET then
      ⟨tr, Run.done NetCloudResult.Network { s with m_hSocket := h } ()⟩
    else
      let pktLogin : Packet_Login :=
        { hdr := { cmd := P.CMD_LOGIN, len := sizeof_Packet_Login, hmac := zeroMac },
          userID := userID, appID := appID }
      let tr1 := tr ++ [NetEvent.send h (pktLogin.hdr.bytes ++ pktLogin.body),
                        NetEvent.recv h sizeof_Packet_Auth_Challenge]
      let sessionKey := CreateSessionKey hm env.challenge.shared userKey
      let answer := SignBytes hm env.challenge.challenge 32 sessionKey
      let hdrAnswer := SignClientPacket hm
        { cmd := P.CMD_AUTH, len := sizeof_Packet_Auth_Answer, hmac := zeroMac }
        answer sessionKey
      let pktAnswer : Packet_Auth_Answer := { hdr := hdrAnswer, answer := answer }
      let tr2 := tr1 ++ [NetEvent.send h (pktAnswer.hdr.bytes ++ pktAnswer.body),
                         NetEvent.recv h sizeof_Packet_Auth_Result]
      let s1 : Session :=
        { m_hSocket := h, m_pchKey := KeyPtr.live userKey, m_iUserID := userID,
          m_sessionKey := sessionKey, m_state := NCState.AnswerSent }
      if env.result.hdr.cmd ≠ P.CMD_AUTHRES then ⟨tr2, Run.aborted⟩
      else
        match AuthenticateServerPacket hm env.result.hdr
            (env.result.body ++ env.beyond) sessionKey with
        | none => ⟨tr2, Run.undefined⟩
        | some true =>
          if env.result.result ≠ 0 then
            ⟨tr2, Run.done NetCloudResult.OK { s1 with m_state := NCState.Operation } ()⟩
          else
            ⟨tr2, Run.done NetCloudResult.Unauthorized
              { s1 with m_state := NCState.LoggedOut } ()⟩
        | some false =>
          ⟨tr2, Run.done NetCloudResult.Network
            { s1 with m_state := NCState.LoggedOut } ()⟩

/-! ## Logout (lines 233-244) -/

/-- `CNetCloudSession::Logout`.  `if (m_hSocket)` tests the handle against zero;
`delete[] m_pchKey` frees the key copy and leaves the pointer dangling, so that
a `delete[]` of a dangling pointer is undefined behaviour.  `m_sessionKey` is
not assigned. -/
def Logout (s : Session) : Exec Unit :=
  let h := if s.m_hSocket ≠ 0 then INVALID_SOCKET else s.m_hSocket
  let tr := if s.m_hSocket ≠ 0 then [NetEvent.closesocket s.m_hSocket] else []
  match s.m_pchKey with
  | KeyPtr.freed => ⟨tr, Run.undefined⟩
  | KeyPtr.null =>
    ⟨tr, Run.done NetCloudResult.OK
      { s with m_hSocket := h, m_iUserID := 0, m_state := NCState.LoggedOut } ()⟩
  | KeyPtr.live _ =>
    ⟨tr, Run.done NetCloudResult.OK
      { s with m_hSocket := h, m_pchKey := KeyPtr.freed, m_iUserID := 0,
               m_state := NCState.LoggedOut } ()⟩

/-! ## FileWrite (lines 246-293) -/

/-- What the environment answers during `FileWrite`: the memory of `wrr` after
its `recv` (the return values of `send` and `recv` are only logged) and the
readable memory that follows `wrr`. -/
structure WriteEnv where
  wrr : Packet_File_Write_Result
  beyond : Bytes

/-- `CNetCloudSession::FileWrite`.  `pchFile` is the file name without its
terminator, so that `strlen(pchFile)` is its length. -/
def FileWrite (P : Protocol) (hm : HmacFn) (s : Session) (pchFile : Bytes)
    (pvData : Bytes) (cubData : Nat) (env : WriteEnv) : Exec Unit :=
  if s.m_state = NCState.Operation then
    let cubFileName := pchFile.length
    let wr0 : Packet_File_Write :=
      { hdr := { cmd := P.CMD_WRITE,
                 len := sizeof_Packet_File_Write + cubFileName + cubData,
                 hmac := zeroMac },
        cubFileName := cubFileName, cubFileContents := cubData }
    let mac := hm s.m_sessionKey
      ((wr0.hdr.bytes ++ wr0.body) ++ pchFile.take wr0.cubFileName
        ++ pvData.take wr0.cubFileContents)
    let wr : Packet_File_Write := { wr0 with hdr := { wr0.hdr with hmac := mac } }
    let tr := [NetEvent.send s.m_hSocket (wr.hdr.bytes ++ wr.body),
               NetEvent.send s.m_hSocket (pchFile.take wr.cubFileName),
               NetEvent.send s.m_hSocket (pvData.take wr.cubFileContents),
               NetEvent.recv s.m_hSocket sizeof_Packet_File_Write_Result]
    match AuthenticateServerPacket hm env.wrr.hdr (env.wrr.body ++ env.beyond)
        s.m_sessionKey with
    | none => ⟨tr, Run.undefined⟩
    | some true =>
      ⟨tr, Run.done (if env.wrr.result = 1 then NetCloudResult.OK
                     else NetCloudResult.Fail) s ()⟩
    | some false => ⟨tr, Run.done NetCloudResult.Fail s ()⟩
  else ⟨[], Run.done NetCloudResult.Fail s ()⟩

/-! ## FileRead (lines 295-366) -/

/-- What one `recv` of payload finds on the transport: bytes that have arrived
(none at all when the peer has closed the connection), or an error. -/
inductive RecvOutcome where
  | data (d : Bytes)
  | error

/-- The bytes a `RecvOutcome` offers. -/
def RecvOutcome.bytes : RecvOutcome → Bytes
  | RecvOutcome.data d => d
  | RecvOutcome.error => []

/-- `recv(sock, buf, max, 0)` on an outcome: the return value and the bytes
stored at `buf`.  At most `max` bytes are taken; a closed connection returns 0
and an error returns `SOCKET_ERROR`, which is -1. -/
def recvInto (o : RecvOutcome) (max : Nat) : Int × Bytes :=
  match o with
  | RecvOutcome.data d => (((d.take max).length : Nat), d.take max)
  | RecvOutcome.error => (-1, [])

/-- What the environment answers during `FileRead`: the memory of `rrr` after
its `recv`, and what the i-th `recv` of the payload loop finds. -/
structure ReadEnv where
  rrr : Packet_File_Read_Result
  payload : Nat → RecvOutcome

/-- The caller's output arguments of `FileRead`: the destination buffer and
`*cubData`. -/
structure ReadOut where
  pvData : Bytes
  cubData : Int
deriving DecidableEq

/-- The variables of the receive loop: `cubRecvLeft`, the HMAC context, the
bytes stored so far from the start of the destination buffer (`bufRecv` points
just after them), the number of `recv` calls made and the calls themselves. -/
structure ReadLoop where
  cubRecvLeft : Int
  ctx : Bytes
  written : Bytes
  calls : Nat
  trace : List NetEvent

/-- One iteration of the loop body (lines 339-346). -/
def recvLoopStep (payload : Nat → RecvOutcome) (sock : Nat) (st : ReadLoop) : ReadLoop :=
  let r := recvInto (payload st.calls) st.cubRecvLeft.toNat
  let tr := st.trace ++ [NetEvent.recv sock st.cubRecvLeft.toNat]
  if r.1 > 0 then
    { cubRecvLeft := st.cubRecvLeft - r.1, ctx := st.ctx ++ r.2,
      written := st.written ++ r.2, calls := st.calls + 1, trace := tr }
  else
    { st with calls := st.calls + 1, trace := tr }

/-- The loop `while (cubRecvLeft > 0)` run for at most `fuel` iterations. -/
def recvLoop (payload : Nat → RecvOutcome) (sock : Nat) : Nat → ReadLoop → ReadLoop
  | 0, st => st
  | fuel + 1, st =>
    if st.cubRecvLeft > 0 then recvLoop payload sock fuel (recvLoopStep payload sock st)
    else st

/-- The request built by `FileRead` before it is signed. -/
def readRequest (P : Protocol) (pchFile : Bytes) (cubData : Int) : Packet_File_Read :=
  { hdr := { cmd := P.CMD_READ, len := sizeof_Packet_File_Read + pchFile.length,
             hmac := zeroMac },
    cubFileName := pchFile.length, maxReadBytes := cubData }

/-- The request of `FileRead` after its MAC has been computed over the
structure followed by the file name (lines 310-315). -/
def signedReadRequest (P : Protocol) (hm : HmacFn) (s : Session) (pchFile : Bytes)
    (cubData : Int) : Packet_File_Read :=
  let rr0 := readRequest P pchFile cubData
  let mac := hm s.m_sessionKey ((rr0.hdr.bytes ++ rr0.body) ++ pchFile.take rr0.cubFileName)
  { rr0 with hdr := { rr0.hdr with hmac := mac } }

/-- The bytes of `rrr` after `memset(rrr.hdr.hmac, 0, HMAC_LEN)`. -/
def Packet_File_Read_Result.zeroedBytes (rrr : Packet_File_Read_Result) : Bytes :=
  ({ rrr.hdr with hmac := zeroMac } : Packet_Header).bytes ++ rrr.body

/-- `CNetCloudSession::FileRead`, its loop run for at most `fuel` iterations.
`out` holds the destination buffer and `*cubData` at the call. -/
def FileRead (P : Protocol) (hm : HmacFn) (s : Session) (pchFile : Bytes)
    (out : ReadOut) (env : ReadEnv) (fuel : Nat) : Exec ReadOut :=
  if s.m_state = NCState.Operation then
    let rr := signedReadRequest P hm s pchFile out.cubData
    let tr := [NetEvent.send s.m_hSocket (rr.hdr.bytes ++ rr.body),
               NetEvent.send s.m_hSocket (pchFile.take rr.cubFileName),
               NetEvent.recv s.m_hSocket sizeof_Packet_File_Read_Result]
    let hmacResultOriginal := env.rrr.hdr.hmac
    let ctx := env.rrr.zeroedBytes
    if ¬ (env.rrr.readBytes ≤ out.cubData) then ⟨tr, Run.aborted⟩
    else
      let st := recvLoop env.payload s.m_hSocket fuel
        { cubRecvLeft := env.rrr.readBytes, ctx := ctx, written := [], calls := 0,
          trace := tr }
      if st.cubRecvLeft > 0 then ⟨st.trace, Run.outOfFuel⟩
      else
        let pvData := st.written ++ out.pvData.drop st.written.length
        let hmacCalculatedResult := hm s.m_sessionKey st.ctx
        if hmacCalculatedResult = hmacResultOriginal then
          ⟨st.trace, Run.done NetCloudResult.OK s
            { pvData := pvData, cubData := env.rrr.readBytes }⟩
        else
          ⟨st.trace, Run.done NetCloudResult.Fail s { pvData := pvData, cubData := -1 }⟩
  else ⟨[], Run.done NetCloudResult.Fail s out⟩

/-- The bytes that the `n` payload receives numbered `i`, `i + 1`, ... find on
the transport, in order. -/
def offered (payload : Nat → RecvOutcome) : Nat → Nat → Bytes
  | _, 0 => []
  | i, n + 1 => (payload i).bytes ++ offered payload (i + 1) n

/-! ## Path commands (lines 372-499) -/

/-- What the environment answers during a path command: the return values of
the two `send` calls, the return value of the `recv`, the memory of the result
packet after it and the readable memory that follows the packet. -/
structure PathEnv (T : Type) where
  send1 : Int
  send2 : Int
  recvRes : Int
  pkt : T
  beyond : Bytes

/-- `CNetCloudSession::SendGenericPathCommand`: the transport calls and the
result, or `none` when `assert(res == sizeof(pktReq) + pktReq.cubFileName)`
fails. -/
def SendGenericPathCommand (hm : HmacFn) (s : Session) (cmd : Nat) (pchFile : Bytes)
    (send1 send2 : Int) : List NetEvent × Option NetCloudResult :=
  let cubFileName := pchFile.length
  let pktReq0 : Packet_File_Generic_Path :=
    { hdr := { cmd := cmd, len := sizeof_Packet_File_Generic_Path + cubFileName,
               hmac := zeroMac },
      cubFileName := cubFileName }
  let mac := hm s.m_sessionKey
    ((pktReq0.hdr.bytes ++ pktReq0.body) ++ pchFile.take pktReq0.cubFileName)
  let pktReq : Packet_File_Generic_Path :=
    { pktReq0 with hdr := { pktReq0.hdr with hmac := mac } }
  let tr := [NetEvent.send s.m_hSocket (pktReq.hdr.bytes ++ pktReq.body),
             NetEvent.send s.m_hSocket (pchFile.take pktReq.cubFileName)]
  let res := send1 + send2
  if res ≠ ((sizeof_Packet_File_Generic_Path + pktReq.cubFileName : Nat) : Int) then
    (tr, none)
  else if res = ((sizeof_Packet_File_Generic_Path + pktReq.cubFileName : Nat) : Int) then
    (tr, some NetCloudResult.OK)
  else (tr, some NetCloudResult.Network)

/-- `CNetCloudSession::ReceiveFixedSizePacket<T>`: `size` is `sizeof(T)`, `hdr`
the header of the received packet and `rest` the readable memory after the
header.  Aborted when `assert(res == sizeof(*pktResult))` fails; faults when
`CheckHMAC` does. -/
def ReceiveFixedSizePacket (hm : HmacFn) (s : Session) (size : Nat) (recvRes : Int)
    (hdr : Packet_Header) (rest : Bytes) : List NetEvent × CallEnd :=
  let tr := [NetEvent.recv s.m_hSocket size]
  if recvRes ≠ (size : Int) then (tr, CallEnd.aborted)
  else if recvRes = (size : Int) then
    match AuthenticateServerPacket hm hdr rest s.m_sessionKey with
    | none => (tr, CallEnd.undefined)
    | some true => (tr, CallEnd.ret NetCloudResult.OK)
    | some false => (tr, CallEnd.ret NetCloudResult.Unauthorized)
  else (tr, CallEnd.ret NetCloudResult.Network)

/-- `CNetCloudSession::ReceiveGenericResult`. -/
def ReceiveGenericResult (hm : HmacFn) (s : Session) (recvRes : Int)
    (pkt : Packet_General_Result) (beyond : Bytes) : List NetEvent × CallEnd :=
  ReceiveFixedSizePacket hm s sizeof_Packet_General_Result recvRes pkt.hdr
    (pkt.body ++ beyond)

/-- `CNetCloudSession::FileDelete`; `pResult` is `*pResult` at the call. -/
def FileDelete (P : Protocol) (hm : HmacFn) (s : Session) (pResult : Bool)
    (pchFile : Bytes) (env : PathEnv Packet_General_Result) : Exec Bool :=
  if s.m_state = NCState.Operation then
    match SendGenericPathCommand hm s P.CMD_EXISTS pchFile env.send1 env.send2 with
    | (tr, none) => ⟨tr, Run.aborted⟩
    | (tr, some res) =>
      if res = NetCloudResult.OK then
        match ReceiveGenericResult hm s env.recvRes env.pkt env.beyond with
        | (tr2, CallEnd.aborted) => ⟨tr ++ tr2, Run.aborted⟩
        | (tr2, CallEnd.undefined) => ⟨tr ++ tr2, Run.undefined⟩
        | (tr2, CallEnd.ret res2) =>
          if res2 = NetCloudResult.OK then
            ⟨tr ++ tr2, Run.done NetCloudResult.OK s (decide (env.pkt.result = 1))⟩
          else ⟨tr ++ tr2, Run.done res2 s pResult⟩
      else ⟨tr, Run.done res s pResult⟩
  else ⟨[], Run.done NetCloudResult.Fail s pResult⟩

/-- `CNetCloudSession::FileExists`; `pResult` is `*pResult` at the call. -/
def FileExists (P : Protocol) (hm : HmacFn) (s : Session) (pResult : Bool)
    (pchFile : Bytes) (env : PathEnv Packet_General_Result) : Exec Bool :=
  if s.m_state = NCState.Operation then
    match SendGenericPathCommand hm s P.CMD_EXISTS pchFile env.send1 env.send2 with
    | (tr, none) => ⟨tr, Run.aborted⟩
    | (tr, some res) =>
      if res = NetCloudResult.OK then
        match ReceiveGenericResult hm s env.recvRes env.pkt env.beyond with
        | (tr2, CallEnd.aborted) => ⟨tr ++ tr2, Run.aborted⟩
        | (tr2, CallEnd.undefined) => ⟨tr ++ tr2, Run.undefined⟩
        | (tr2, CallEnd.ret res2) =>
          if res2 = NetCloudResult.OK then
            ⟨tr ++ tr2, Run.done NetCloudResult.OK s (decide (env.pkt.result = 1))⟩
          else ⟨tr ++ tr2, Run.done res2 s pResult⟩
      else ⟨tr, Run.done res s pResult⟩
  else ⟨[], Run.done NetCloudResult.Fail s pResult⟩

/-- `CNetCloudSession::GetFileSize`; `result` is `*result` at the call. -/
def GetFileSize (P : Protocol) (hm : HmacFn) (s : Session) (result : Int)
    (pchFile : Bytes) (env : PathEnv Packet_File_Size_Result) : Exec Int :=
  if s.m_state = NCState.Operation then
    match SendGenericPathCommand hm s P.CMD_SIZE pchFile env.send1 env.send2 with
    | (tr, none) => ⟨tr, Run.aborted⟩
    | (tr, some res) =>
      if res = NetCloudResult.OK then
        match ReceiveFixedSizePacket hm s sizeof_Packet_File_Size_Result env.recvRes
            env.pkt.hdr (env.pkt.body ++ env.beyond) with
        | (tr2, CallEnd.aborted) => ⟨tr ++ tr2, Run.aborted⟩
        | (tr2, CallEnd.undefined) => ⟨tr ++ tr2, Run.undefined⟩
        | (tr2, CallEnd.ret res2) =>
          if res2 = NetCloudResult.OK then
            ⟨tr ++ tr2, Run.done NetCloudResult.OK s env.pkt.fileLength⟩
          else ⟨tr ++ tr2, Run.done res2 s result⟩
      else ⟨tr, Run.done res s result⟩
  else ⟨[], Run.done NetCloudResult.Fail s result⟩

/-- A toy digest for concrete evaluation: 31 zero bytes and a checksum. -/
def toyHmac : HmacFn :=
  fun key msg => List.replicate 31 0 ++ [(key.sum + msg.sum) % 256]

/-! ## Server: HandleFileExists (`src/handle_fileexists.cpp`) -/

/-- Modelled from the spec: the per-connection context `Client` of `common.h`,
which is not among the sources: the socket of the connection, the user and
application ids of the logged-in client and the session key. -/
structure Client where
  socket : Nat
  userID : Nat
  appID : Nat
  sessionKey : Bytes

/-- The helpers called by `HandleFileExists` whose code is not among the
sources (`packet_signing.h`, `stdio_nc.h`), taken as parameters.
`AuthenticateClientPacket hdr rest len cli` is the answer of
`AuthenticateClientPacket(pkt, len, cli)` for a packet with header `hdr`
followed in memory by `rest`; `SignServerPacket hdr body key` is the header
that `SignServerPacket(packet, key)` leaves in a packet with header `hdr` and
fields `body`; `fopen_nc name mode userID appID` tells whether the storage
backend returns a non-null `FILE*`. -/
structure ServerDeps where
  AuthenticateClientPacket : Packet_Header → Bytes → Nat → Client → Bool
  SignServerPacket : Packet_Header → Bytes → Bytes → Packet_Header
  fopen_nc : Bytes → Bytes → Nat → Nat → Bool

/-- A call made by the handler on the storage backend or on the transport;
`send sock data size` sends `size` bytes holding `data`. -/
inductive ServerEvent where
  | fopen_nc (filename mode : Bytes) (userID appID : Nat)
  | fclose
  | send (sock : Nat) (data : Bytes) (size : Nat)
  | close (sock : Nat)
deriving DecidableEq

/-- Whether an event is a `send`. -/
def ServerEvent.isSend : ServerEvent → Bool
  | ServerEvent.send _ _ _ => true
  | _ => false

/-- How the handler ends: it returns, or the process is aborted by the failed
`assert(res == sizeof(pktResult))`, or it faults while copying the file name
and does nothing further. -/
inductive HandlerRun where
  | returned
  | aborted
  | faulted
deriving DecidableEq

/-- The calls made by the handler, in order, and how it ends. -/
structure HandlerExec where
  trace : List ServerEvent
  run : HandlerRun
deriving DecidableEq

/-- What the environment decides during `HandleFileExists`: the indeterminate
bytes in the MAC field of the local `pktResult`, which the handler does not
initialise, and the return value of `send`. -/
structure HandlerEnv where
  uninit : Bytes
  sendRes : Int

/-- The mode string of the `fopen_nc` call: the characters r and b. -/
def modeRb : Bytes := [114, 98]

/-- Whether lines 24-27 stay inside memory.  `cubFileName` is a 32-bit field
taken from the request and nothing bounds it (line 30: TODO: Do bounds check):
`new char[pkt->cubFileName + 1]` allocates `cubFileName + 1` bytes, a sum that
wraps to 0 when the field is 4294967295, and `memcpy` copies `cubFileName`
bytes from the memory after the request structure, of which `trailing` is the
readable part.  The copy is safe when the sum does not wrap and the bytes to
copy are all readable; otherwise the handler faults. -/
def nameCopyInBounds (pkt : Packet_File_Generic_Path) (trailing : Bytes) : Bool :=
  decide (pkt.cubFileName + 1 < 2 ^ 32) && decide (pkt.cubFileName ≤ trailing.length)

/-- The string in `filename` after lines 23-27 when the copy stays inside
memory: `cubFileName` bytes copied from the memory after the request structure
and a terminator appended, so that the string ends before the first zero byte. -/
def requestFileName (pkt : Packet_File_Generic_Path) (trailing : Bytes) : Bytes :=
  (trailing.take pkt.cubFileName).takeWhile (fun b => b != 0)

/-- Lines 44-47 of `HandleFileExists`: sign `pktResult` with the session key of
the connection, send the structure, and assert that it was sent whole.
`calls` are the calls made before. -/
def sendExistsResult (P : Protocol) (D : ServerDeps) (cli : Client) (env : HandlerEnv)
    (calls : List ServerEvent) (result : Nat) : HandlerExec :=
  let pktResult0 : Packet_File_Write_Result :=
    { hdr := { cmd := P.CMD_EXISTS, len := sizeof_Packet_File_Write_Result,
               hmac := env.uninit },
      result := result }
  let pktResult : Packet_File_Write_Result :=
    { pktResult0 with
      hdr := D.SignServerPacket pktResult0.hdr pktResult0.body cli.sessionKey }
  let tr := calls ++ [ServerEvent.send cli.socket (pktResult.hdr.bytes ++ pktResult.body)
                        sizeof_Packet_File_Write_Result]
  if env.sendRes ≠ (sizeof_Packet_File_Write_Result : Int) then ⟨tr, HandlerRun.aborted⟩
  else ⟨tr, HandlerRun.returned⟩

/-- `HandleFileExists(cli, pkt)`; `trailing` is the readable memory that follows
the request structure, where the file name was received. -/
def HandleFileExists (P : Protocol) (D : ServerDeps) (cli : Client)
    (pkt : Packet_File_Generic_Path) (trailing : Bytes) (env : HandlerEnv) : HandlerExec :=
  if D.AuthenticateClientPacket pkt.hdr (pkt.body ++ trailing) pkt.hdr.len cli then
    if nameCopyInBounds pkt trailing then
      let filename := requestFileName pkt trailing
      let opening := ServerEvent.fopen_nc filename modeRb cli.userID cli.appID
      if D.fopen_nc filename modeRb cli.userID cli.appID then
        sendExistsResult P D cli env [opening, ServerEvent.fclose] 1
      else
        sendExistsResult P D cli env [opening] 0
    else ⟨[], HandlerRun.faulted⟩
  else
    sendExistsResult P D cli env [] 0

/-- Modelled from the spec: the helpers of `packet_signing.h` and `stdio_nc.h`
as the spec describes them, for concrete evaluation.  Verification saves the
received MAC, zeroes the field, recomputes the digest over the declared length
and compares; signing zeroes the field and stores the digest of the packet;
the storage backend opens the files listed in `files` by name, user id and
application id. -/
def specServerDeps (hm : HmacFn) (files : List (Bytes × Nat × Nat)) : ServerDeps :=
  { AuthenticateClientPacket := fun hdr rest len cli =>
      decide (hm cli.sessionKey
        ((({ hdr with hmac := zeroMac } : Packet_Header).bytes ++ rest).take len) = hdr.hmac),
    SignServerPacket := fun hdr body key => SignClientPacket hm hdr body key,
    fopen_nc := fun name _ userID appID => decide ((name, userID, appID) ∈ files) }

/-! ## Concrete inputs used to evaluate the definitions -/

/-- A 32-byte key used in the concrete examples. -/
def exampleKey : Bytes := List.replicate 32 7

/-- Command codes used in the concrete examples. -/
def exampleProtocol : Protocol :=
  { CMD_LOGIN := 1, CMD_AUTH := 2, CMD_AUTHRES := 3, CMD_WRITE := 4, CMD_READ := 5,
    CMD_EXISTS := 6, CMD_DELETE := 7, CMD_SIZE := 8 }

/-- A user key used in the concrete examples. -/
def exampleUserKey : Bytes := [107, 101, 121]

/-- A challenge packet used in the concrete examples. -/
def exampleChallenge : Packet_Auth_Challenge :=
  { hdr := { cmd := 2, len := 136, hmac := zeroMac },
    shared := List.replicate 64 1, challenge := List.replicate 32 2 }

/-- The session key that `exampleUserKey` and `exampleChallenge` give. -/
def exampleLoginKey : Bytes :=
  CreateSessionKey toyHmac exampleChallenge.shared exampleUserKey

/-- An AuthResult with the given flag, validly signed under `exampleLoginKey`. -/
def exampleAuthResult (flag : Nat) : Packet_Auth_Result :=
  { hdr := SignClientPacket toyHmac { cmd := 3, len := 41, hmac := zeroMac } (le 1 flag)
      exampleLoginKey,
    result := flag }

/-- An AuthResult with flag 1 whose MAC does not match and whose header declares
a length of 4294967295 bytes. -/
def exampleOverlongAuthResult : Packet_Auth_Result :=
  { hdr := { cmd := 3, len := 4294967295, hmac := List.replicate 32 255 }, result := 1 }

/-- An AuthResult with the given flag and a MAC that does not verify. -/
def exampleBadAuthResult (flag : Nat) : Packet_Auth_Result :=
  { hdr := { cmd := 3, len := 41, hmac := List.replicate 32 255 }, result := flag }

/-- A login environment: the name resolves to one address, the socket gets
handle 7 and connects, and the server answers with `result`. -/
def exampleLoginEnv (result : Packet_Auth_Result) : LoginEnv :=
  { resolves := true, addrs := [{ handle := 7, connects := true }],
    challenge := exampleChallenge, result := result, beyond := [] }

/-- A session in the given state with an open socket and a live key. -/
def exampleSession (st : NCState) : Session :=
  { m_hSocket := 7, m_pchKey := KeyPtr.live exampleUserKey, m_iUserID := 1,
    m_sessionKey := exampleKey, m_state := st }

/-- A write result with the given result byte and a MAC that does not verify. -/
def exampleBadWriteResult (result : Nat) : WriteEnv :=
  { wrr := { hdr := { cmd := 4, len := 41, hmac := List.replicate 32 255 },
             result := result },
    beyond := [] }

/-- A path-command environment for the one-byte file name used in the examples:
both sends and the receive are complete, and the result packet is `pkt`. -/
def examplePathEnv (pkt : Packet_General_Result) : PathEnv Packet_General_Result :=
  { send1 := 44, send2 := 1, recvRes := 41, pkt := pkt, beyond := [] }

/-- A general result with the given result byte and a MAC that does not verify. -/
def exampleBadGeneralResult (result : Nat) : Packet_General_Result :=
  { hdr := { cmd := 6, len := 41, hmac := List.replicate 32 255 }, result := result }

/-- A read result header declaring `readBytes` payload bytes, whose MAC is the
digest under `exampleKey` of the zeroed header followed by `payload`. -/
def exampleReadResult (readBytes : Int) (payload : Bytes) : Packet_File_Read_Result :=
  { hdr := { cmd := 5, len := 44 + payload.length,
             hmac := toyHmac exampleKey
               (Packet_Header.bytes { cmd := 5, len := 44 + payload.length, hmac := zeroMac }
                 ++ le32s readBytes ++ payload) },
    readBytes := readBytes }

/-- A transport on which the first payload receive finds two bytes and every
later one finds three. -/
def exampleChunks : Nat → RecvOutcome :=
  fun i => if i = 0 then RecvOutcome.data [1, 2] else RecvOutcome.data [3, 4, 5]

/-- A transport whose peer has closed the connection: every receive returns 0. -/
def closedTransport : Nat → RecvOutcome := fun _ => RecvOutcome.data []

/-- A transport whose first payload receive fails with an error and whose later
receives find three bytes. -/
def errorThenData : Nat → RecvOutcome :=
  fun i => if i = 0 then RecvOutcome.error else RecvOutcome.data [1, 2, 3]

/-- The session that `Login` leaves after the successful example handshake. -/
def exampleLoggedInSession : Session :=
  { m_hSocket := 7, m_pchKey := KeyPtr.live exampleUserKey, m_iUserID := 1,
    m_sessionKey := exampleLoginKey, m_state := NCState.Operation }

/-- The connection context of the server examples, holding `exampleKey`. -/
def exampleClient : Client :=
  { socket := 9, userID := 1, appID := 2, sessionKey := exampleKey }

/-- The file name used in the server examples: the characters of "m.txt". -/
def exampleName : Bytes := [109, 46, 116, 120, 116]

/-- The existence request for `exampleName` as the client signs it under
`exampleKey` (lines 379-389 of the client). -/
def exampleExistsRequest : Packet_File_Generic_Path :=
  { hdr := { cmd := exampleProtocol.CMD_EXISTS,
             len := sizeof_Packet_File_Generic_Path + exampleName.length,
             hmac := toyHmac exampleKey
               (Packet_Header.bytes
                   { cmd := exampleProtocol.CMD_EXISTS,
                     len := sizeof_Packet_File_Generic_Path + exampleName.length,
                     hmac := zeroMac }
                 ++ le 4 exampleName.length ++ exampleName) },
    cubFileName := exampleName.length }

/-- An existence request as a client holding `exampleKey` can sign it: the
five bytes of `exampleName` follow it, the header declares their length, and
the name-length field is 4294967295. -/
def exampleOverlongNameRequest : Packet_File_Generic_Path :=
  { hdr := { cmd := exampleProtocol.CMD_EXISTS,
             len := sizeof_Packet_File_Generic_Path + exampleName.length,
             hmac := toyHmac exampleKey
               (Packet_Header.bytes
                   { cmd := exampleProtocol.CMD_EXISTS,
                     len := sizeof_Packet_File_Generic_Path + exampleName.length,
                     hmac := zeroMac }
                 ++ le 4 4294967295 ++ exampleName) },
    cubFileName := 4294967295 }

/-- The same request with a MAC that does not verify. -/
def exampleForgedRequest : Packet_File_Generic_Path :=
  { exampleExistsRequest with
    hdr := { exampleExistsRequest.hdr with hmac := List.replicate 32 255 } }

/-- The result packet with the given result byte, signed under `exampleKey`. -/
def exampleExistsResult (result : Nat) : Packet_General_Result :=
  { hdr := SignClientPacket toyHmac
      { cmd := exampleProtocol.CMD_EXISTS, len := sizeof_Packet_File_Write_Result,
        hmac := [] }
      (le 1 result) exampleKey,
    result := result }

/-- A handler environment: stale bytes in the MAC field, a complete send. -/
def exampleHandlerEnv : HandlerEnv :=
  { uninit := List.replicate 32 170, sendRes := 41 }

end NetCloud

namespace NetCloud

set_option maxRecDepth 100000

/-! ## Signing and verification -/

theorem le_length (w n : Nat) : (le w n).length = w := by
  simp [le]

theorem zeroMac_length : zeroMac.length = HMAC_LEN := by
  simp [zeroMac]

theorem zeroed_header_length (hdr : Packet_Header) :
    (({ hdr with hmac := zeroMac } : Packet_Header).bytes).length = sizeof_Packet_Header := by
  simp [Packet_Header.bytes, le_length, zeroMac_length, HMAC_LEN, sizeof_Packet_Header]

/-- C3: a fixed-size packet whose header length equals its byte size
(`sizeof(Packet_Header)` plus the bytes of its body), signed by
`SignClientPacket` under a 32-byte key `K`, is accepted by
`AuthenticateServerPacket`/`CheckHMAC` under `K`, whatever function HMAC is and
whatever memory follows the packet at either end. -/
theorem sign_then_verify (hm : HmacFn) (hdr : Packet_Header) (body : Bytes)
    (K : Bytes) (adjSign adjVerify : Bytes)
    (_hK : K.length = SESSION_KEY_LEN)
    (hlen : hdr.len = sizeof_Packet_Header + body.length) :
    AuthenticateServerPacket hm (SignClientPacket hm hdr (body ++ adjSign) K)
      (body ++ adjVerify) K = some true := by
  have hz := zeroed_header_length hdr
  have key : ∀ adj : Bytes,
      ((({ hdr with hmac := zeroMac } : Packet_Header).bytes) ++ (body ++ adj)).take hdr.len
        = ({ hdr with hmac := zeroMac } : Packet_Header).bytes ++ body := by
    intro adj
    generalize ({ hdr with hmac := zeroMac } : Packet_Header).bytes = zb at hz
    rw [← List.append_assoc, hlen, ← hz, ← List.length_append]
    exact List.take_left _ _
  have hin : hdr.len
      ≤ ((({ hdr with hmac := zeroMac } : Packet_Header).bytes) ++ (body ++ adjVerify)).length := by
    rw [List.length_append, List.length_append, hz, hlen]
    omega
  simp only [AuthenticateServerPacket, CheckHMAC, SignClientPacket, CalculateHMAC, SignBytes,
    hin, if_true, key adjSign, key adjVerify]
  simp

/-- C3 at a concrete packet: a general result packet with result byte 1. -/
theorem sign_then_verify_witness :
    exampleKey.length = SESSION_KEY_LEN ∧
    (41 : Nat) = sizeof_Packet_Header + (le 1 1).length ∧
    AuthenticateServerPacket toyHmac
      (SignClientPacket toyHmac { cmd := 12, len := 41, hmac := zeroMac }
        (le 1 1 ++ [9, 9]) exampleKey)
      (le 1 1 ++ [5]) exampleKey = some true :=
  ⟨by decide, by decide,
   sign_then_verify toyHmac { cmd := 12, len := 41, hmac := zeroMac } (le 1 1)
     exampleKey [9, 9] [5] (by decide) (by decide)⟩

/-! ## Login -/

theorem Login_of_connected (P : Protocol) (hm : HmacFn) (s : Session) (userID : Nat)
    (userKey : Bytes) (appID : Nat) (env : LoginEnv)
    (hstate : s.m_state = NCState.LoggedOut)
    (hres : env.resolves = true)
    (hconn : (connectLoop env.addrs s.m_hSocket []).2.1 = false)
    (hsock : (connectLoop env.addrs s.m_hSocket []).1 ≠ INVALID_SOCKET)
    (hcmd : env.result.hdr.cmd = P.CMD_AUTHRES) :
    (Login P hm s userID userKey appID env).run =
      (let key := CreateSessionKey hm env.challenge.shared userKey
       let s1 : Session :=
         { m_hSocket := (connectLoop env.addrs s.m_hSocket []).1,
           m_pchKey := KeyPtr.live userKey, m_iUserID := userID,
           m_sessionKey := key, m_state := NCState.AnswerSent }
       match AuthenticateServerPacket hm env.result.hdr (env.result.body ++ env.beyond) key with
       | none => Run.undefined
       | some true =>
         if env.result.result ≠ 0 then
           Run.done NetCloudResult.OK { s1 with m_state := NCState.Operation } ()
         else Run.done NetCloudResult.Unauthorized { s1 with m_state := NCState.LoggedOut } ()
       | some false =>
         Run.done NetCloudResult.Network { s1 with m_state := NCState.LoggedOut } ()) := by
  rcases hcl : connectLoop env.addrs s.m_hSocket [] with ⟨h, early, tr⟩
  rw [hcl] at hconn hsock
  simp only at hconn hsock
  subst hconn
  simp only [Login, hstate, hres, hcl, hcmd]
  simp only [ne_eq, not_true_eq_false, if_false, Bool.not_true, Bool.false_eq_true, hsock]
  rcases AuthenticateServerPacket hm env.result.hdr (env.result.body ++ env.beyond)
      (CreateSessionKey hm env.challenge.shared userKey) with _ | _ | _
  · rfl
  · rfl
  · simp only
    split <;> rfl

/-- `Login` on an AuthResult whose verification completes: for every call that
is made in state LoggedOut, connects and receives an AuthChallenge and an
AuthResult (command `CMD_AUTHRES`): if `CheckHMAC` returns true under the
derived session key and the flag is non-zero, `Login` returns OK in state
Operation; if it returns true and the flag is zero, `Login` returns
Unauthorized in state LoggedOut; if it returns false, `Login` returns Network
in state LoggedOut, whatever the flag is; and if `CheckHMAC` faults, `Login`
returns nothing. -/
theorem Login_handshake (P : Protocol) (hm : HmacFn) (s : Session) (userID : Nat)
    (userKey : Bytes) (appID : Nat) (env : LoginEnv)
    (hstate : s.m_state = NCState.LoggedOut)
    (hres : env.resolves = true)
    (hconn : (connectLoop env.addrs s.m_hSocket []).2.1 = false)
    (hsock : (connectLoop env.addrs s.m_hSocket []).1 ≠ INVALID_SOCKET)
    (hcmd : env.result.hdr.cmd = P.CMD_AUTHRES) :
    (AuthenticateServerPacket hm env.result.hdr (env.result.body ++ env.beyond)
        (CreateSessionKey hm env.challenge.shared userKey) = some true →
      env.result.result ≠ 0 →
      ∃ s', (Login P hm s userID userKey appID env).run = Run.done NetCloudResult.OK s' ()
        ∧ s'.m_state = NCState.Operation) ∧
    (AuthenticateServerPacket hm env.result.hdr (env.result.body ++ env.beyond)
        (CreateSessionKey hm env.challenge.shared userKey) = some true →
      env.result.result = 0 →
      ∃ s', (Login P hm s userID userKey appID env).run
          = Run.done NetCloudResult.Unauthorized s' ()
        ∧ s'.m_state = NCState.LoggedOut) ∧
    (AuthenticateServerPacket hm env.result.hdr (env.result.body ++ env.beyond)
        (CreateSessionKey hm env.challenge.shared userKey) = some false →
      ∃ s', (Login P hm s userID userKey appID env).run = Run.done NetCloudResult.Network s' ()
        ∧ s'.m_state = NCState.LoggedOut) ∧
    (AuthenticateServerPacket hm env.result.hdr (env.result.body ++ env.beyond)
        (CreateSessionKey hm env.challenge.shared userKey) = none →
      (Login P hm s userID userKey appID env).run = Run.undefined) := by
  have h := Login_of_connected P hm s userID userKey appID env hstate hres hconn hsock hcmd
  refine ⟨fun hv hf => ?_, fun hv hf => ?_, fun hv => ?_, fun hv => ?_⟩
  · exact ⟨_, by rw [h]; (simp only [hv, if_true, hf, ne_eq, not_false_eq_true]; rfl), rfl⟩
  · exact ⟨_, by rw [h]; (simp only [hv, if_true, hf, ne_eq, not_true_eq_false, if_false]; rfl),
      rfl⟩
  · exact ⟨_, by rw [h]; (simp only [hv]; rfl), rfl⟩
  · rw [h]
    simp only [hv]

/-- `Login_handshake` at a concrete handshake: a validly signed AuthResult with
flag 1. -/
theorem Login_handshake_witness :
    ∃ s', (Login exampleProtocol toyHmac (Session.new []) 1 exampleUserKey 2
        (exampleLoginEnv (exampleAuthResult 1))).run = Run.done NetCloudResult.OK s' ()
      ∧ s'.m_state = NCState.Operation :=
  (Login_handshake exampleProtocol toyHmac (Session.new []) 1 exampleUserKey 2
    (exampleLoginEnv (exampleAuthResult 1)) rfl rfl (by decide) (by decide) rfl).1
    (by decide) (by decide)

/-- C1 (the code at an AuthResult whose length field is over-long): the server
answers the handshake with a complete AuthResult (command `CMD_AUTHRES`, flag
1) whose MAC does not match and whose header declares a length of 4294967295.
`CheckHMAC` is told to hash that many bytes starting at the 41-byte packet, the
read leaves the readable memory, and `Login` returns nothing: neither Network
nor any other result.  The same packet with its true length 41 does not verify
and makes `Login` return Network in state LoggedOut. -/
theorem Login_overlong_length_faults :
    exampleOverlongAuthResult.hdr.cmd = exampleProtocol.CMD_AUTHRES ∧
    (Login exampleProtocol toyHmac (Session.new []) 1 exampleUserKey 2
        (exampleLoginEnv exampleOverlongAuthResult)).run = Run.undefined ∧
    (¬ ∃ res s',
      (Login exampleProtocol toyHmac (Session.new []) 1 exampleUserKey 2
        (exampleLoginEnv exampleOverlongAuthResult)).run = Run.done res s' ()) ∧
    (Login exampleProtocol toyHmac (Session.new []) 1 exampleUserKey 2
        (exampleLoginEnv
          { exampleOverlongAuthResult with
            hdr := { exampleOverlongAuthResult.hdr with len := 41 } })).run
      = Run.done NetCloudResult.Network
          { m_hSocket := 7, m_pchKey := KeyPtr.live exampleUserKey, m_iUserID := 1,
            m_sessionKey := exampleLoginKey, m_state := NCState.LoggedOut } () := by
  have h : (Login exampleProtocol toyHmac (Session.new []) 1 exampleUserKey 2
        (exampleLoginEnv exampleOverlongAuthResult)).run = Run.undefined := by decide
  refine ⟨rfl, h, ?_, by decide⟩
  rintro ⟨res, s', hdone⟩
  rw [h] at hdone
  cases hdone

/-- C9 (the code at a failing handshake): after a handshake that is answered
with a verified negative AuthResult (`Login` returns Unauthorized) or with an
AuthResult that does not verify (`Login` returns Network), `m_hSocket` is still
the connected handle 7, which is not `INVALID_SOCKET`, and `closesocket` has not
been called on it. -/
theorem Login_failed_handshake_leaves_socket_open :
    (Login exampleProtocol toyHmac (Session.new []) 1 exampleUserKey 2
        (exampleLoginEnv (exampleAuthResult 0))).run
      = Run.done NetCloudResult.Unauthorized
          { m_hSocket := 7, m_pchKey := KeyPtr.live exampleUserKey, m_iUserID := 1,
            m_sessionKey := exampleLoginKey, m_state := NCState.LoggedOut } () ∧
    NetEvent.closesocket 7 ∉
      (Login exampleProtocol toyHmac (Session.new []) 1 exampleUserKey 2
        (exampleLoginEnv (exampleAuthResult 0))).trace ∧
    (Login exampleProtocol toyHmac (Session.new []) 1 exampleUserKey 2
        (exampleLoginEnv (exampleBadAuthResult 1))).run
      = Run.done NetCloudResult.Network
          { m_hSocket := 7, m_pchKey := KeyPtr.live exampleUserKey, m_iUserID := 1,
            m_sessionKey := exampleLoginKey, m_state := NCState.LoggedOut } () ∧
    NetEvent.closesocket 7 ∉
      (Login exampleProtocol toyHmac (Session.new []) 1 exampleUserKey 2
        (exampleLoginEnv (exampleBadAuthResult 1))).trace ∧
    (7 : Nat) ≠ INVALID_SOCKET := by
  refine ⟨by decide, by decide, by decide, by decide, by decide⟩

/-! ## Operations outside state Operation -/

/-- C2: in a session whose state is not Operation, each of `FileWrite`,
`FileRead`, `FileExists`, `FileDelete` and `GetFileSize` returns Fail for every
argument and every environment, makes no transport call (the trace is empty),
and leaves the session and the caller's output arguments as they were. -/
theorem operations_rejected_outside_Operation (P : Protocol) (hm : HmacFn) (s : Session)
    (hstate : s.m_state ≠ NCState.Operation) :
    (∀ (pchFile pvData : Bytes) (cubData : Nat) (env : WriteEnv),
      FileWrite P hm s pchFile pvData cubData env
        = ⟨[], Run.done NetCloudResult.Fail s ()⟩) ∧
    (∀ (pchFile : Bytes) (out : ReadOut) (env : ReadEnv) (fuel : Nat),
      FileRead P hm s pchFile out env fuel = ⟨[], Run.done NetCloudResult.Fail s out⟩) ∧
    (∀ (pResult : Bool) (pchFile : Bytes) (env : PathEnv Packet_General_Result),
      FileExists P hm s pResult pchFile env
        = ⟨[], Run.done NetCloudResult.Fail s pResult⟩) ∧
    (∀ (pResult : Bool) (pchFile : Bytes) (env : PathEnv Packet_General_Result),
      FileDelete P hm s pResult pchFile env
        = ⟨[], Run.done NetCloudResult.Fail s pResult⟩) ∧
    (∀ (result : Int) (pchFile : Bytes) (env : PathEnv Packet_File_Size_Result),
      GetFileSize P hm s result pchFile env
        = ⟨[], Run.done NetCloudResult.Fail s result⟩) := by
  refine ⟨?_, ?_, ?_, ?_, ?_⟩
  · intro pchFile pvData cubData env
    simp only [FileWrite, hstate, if_false]
  · intro pchFile out env fuel
    simp only [FileRead, hstate, if_false]
  · intro pResult pchFile env
    simp only [FileExists, hstate, if_false]
  · intro pResult pchFile env
    simp only [FileDelete, hstate, if_false]
  · intro result pchFile env
    simp only [GetFileSize, hstate, if_false]

/-- C2 at a concrete session in state AnswerSent: `FileExists` on a one-byte
name with a stale output of `true`. -/
theorem operations_rejected_outside_Operation_witness :
    FileExists exampleProtocol toyHmac (exampleSession NCState.AnswerSent) true [97]
        (examplePathEnv (exampleBadGeneralResult 1))
      = ⟨[], Run.done NetCloudResult.Fail (exampleSession NCState.AnswerSent) true⟩ :=
  (operations_rejected_outside_Operation exampleProtocol toyHmac
    (exampleSession NCState.AnswerSent) (by decide)).2.2.1 true [97]
    (examplePathEnv (exampleBadGeneralResult 1))

/-! ## Path commands -/

/-- C6 (the code of `FileDelete`): for every session, name and environment,
`FileDelete` makes the same transport calls, with the same bytes, and gives the
same result as `FileExists`: the request it sends carries `CMD_EXISTS`, the
command that line 430 passes to `SendGenericPathCommand`. -/
theorem FileDelete_sends_the_FileExists_request (P : Protocol) (hm : HmacFn) (s : Session)
    (pResult : Bool) (pchFile : Bytes) (env : PathEnv Packet_General_Result) :
    FileDelete P hm s pResult pchFile env = FileExists P hm s pResult pchFile env ∧
    (FileDelete P hm s pResult pchFile env).trace.head?
      = if s.m_state = NCState.Operation then
          some (NetEvent.send s.m_hSocket
            (Packet_Header.bytes
              { cmd := P.CMD_EXISTS,
                len := sizeof_Packet_File_Generic_Path + pchFile.length,
                hmac := hm s.m_sessionKey
                  (Packet_Header.bytes
                      { cmd := P.CMD_EXISTS,
                        len := sizeof_Packet_File_Generic_Path + pchFile.length,
                        hmac := zeroMac }
                    ++ le 4 pchFile.length ++ pchFile) }
              ++ le 4 pchFile.length))
        else none := by
  refine ⟨rfl, ?_⟩
  by_cases hop : s.m_state = NCState.Operation
  · rcases hA : AuthenticateServerPacket hm env.pkt.hdr (env.pkt.body ++ env.beyond)
        s.m_sessionKey with _ | _ | _ <;>
      simp only [FileDelete, hop, if_true, SendGenericPathCommand, ReceiveGenericResult,
        ReceiveFixedSizePacket, Packet_File_Generic_Path.body, List.take_length, hA] <;>
      split_ifs <;> simp
  · simp only [FileDelete, hop, if_false, List.head?_nil]

theorem send_path_command_result (hm : HmacFn) (s : Session) (cmd : Nat)
    (pchFile : Bytes) (send1 send2 : Int) :
    ((SendGenericPathCommand hm s cmd pchFile send1 send2).2 = none ∨
      (SendGenericPathCommand hm s cmd pchFile send1 send2).2 = some NetCloudResult.OK) ∧
    (send1 + send2 = ((sizeof_Packet_File_Generic_Path + pchFile.length : Nat) : Int) →
      (SendGenericPathCommand hm s cmd pchFile send1 send2).2 = some NetCloudResult.OK) := by
  refine ⟨?_, ?_⟩
  · by_cases h : send1 + send2
        = ((sizeof_Packet_File_Generic_Path + pchFile.length : Nat) : Int)
    · right
      simp only [SendGenericPathCommand, h, ne_eq, not_true_eq_false, if_false, if_true]
    · left
      simp only [SendGenericPathCommand, ne_eq, h, not_false_eq_true, if_true]
  · intro h
    simp only [SendGenericPathCommand, h, ne_eq, not_true_eq_false, if_false, if_true]

theorem receive_of_rejected (hm : HmacFn) (s : Session) (size : Nat) (recvRes : Int)
    (hdr : Packet_Header) (rest : Bytes)
    (hbad : AuthenticateServerPacket hm hdr rest s.m_sessionKey = some false) :
    ((ReceiveFixedSizePacket hm s size recvRes hdr rest).2 = CallEnd.aborted ∨
      (ReceiveFixedSizePacket hm s size recvRes hdr rest).2
        = CallEnd.ret NetCloudResult.Unauthorized) ∧
    (recvRes = (size : Int) →
      (ReceiveFixedSizePacket hm s size recvRes hdr rest).2
        = CallEnd.ret NetCloudResult.Unauthorized) := by
  have hcomplete : recvRes = (size : Int) →
      (ReceiveFixedSizePacket hm s size recvRes hdr rest).2
        = CallEnd.ret NetCloudResult.Unauthorized := by
    intro h
    simp only [ReceiveFixedSizePacket, hbad, h, ne_eq, not_true_eq_false, if_false, if_true]
  refine ⟨?_, hcomplete⟩
  by_cases h : recvRes = (size : Int)
  · exact Or.inr (hcomplete h)
  · left
    simp only [ReceiveFixedSizePacket, ne_eq, h, not_false_eq_true, if_true]

theorem receive_of_fault (hm : HmacFn) (s : Session) (size : Nat) (recvRes : Int)
    (hdr : Packet_Header) (rest : Bytes)
    (hbad : AuthenticateServerPacket hm hdr rest s.m_sessionKey = none) :
    ((ReceiveFixedSizePacket hm s size recvRes hdr rest).2 = CallEnd.aborted ∨
      (ReceiveFixedSizePacket hm s size recvRes hdr rest).2 = CallEnd.undefined) ∧
    (recvRes = (size : Int) →
      (ReceiveFixedSizePacket hm s size recvRes hdr rest).2 = CallEnd.undefined) := by
  have hcomplete : recvRes = (size : Int) →
      (ReceiveFixedSizePacket hm s size recvRes hdr rest).2 = CallEnd.undefined := by
    intro h
    simp only [ReceiveFixedSizePacket, hbad, h, ne_eq, not_true_eq_false, if_false, if_true]
  refine ⟨?_, hcomplete⟩
  by_cases h : recvRes = (size : Int)
  · exact Or.inr (hcomplete h)
  · left
    simp only [ReceiveFixedSizePacket, ne_eq, h, not_false_eq_true, if_true]

theorem FileExists_unverified (P : Protocol) (hm : HmacFn) (s : Session)
    (hop : s.m_state = NCState.Operation) (pResult : Bool) (pchFile : Bytes)
    (env : PathEnv Packet_General_Result) (e : CallEnd) (r : Run Bool)
    (hrecv : ((ReceiveFixedSizePacket hm s sizeof_Packet_General_Result env.recvRes
          env.pkt.hdr (env.pkt.body ++ env.beyond)).2 = CallEnd.aborted ∨
        (ReceiveFixedSizePacket hm s sizeof_Packet_General_Result env.recvRes
          env.pkt.hdr (env.pkt.body ++ env.beyond)).2 = e) ∧
      (env.recvRes = (sizeof_Packet_General_Result : Int) →
        (ReceiveFixedSizePacket hm s sizeof_Packet_General_Result env.recvRes
          env.pkt.hdr (env.pkt.body ++ env.beyond)).2 = e))
    (he : (e = CallEnd.ret NetCloudResult.Unauthorized
          ∧ r = Run.done NetCloudResult.Unauthorized s pResult) ∨
        (e = CallEnd.undefined ∧ r = Run.undefined)) :
    ((FileExists P hm s pResult pchFile env).run = Run.aborted ∨
      (FileExists P hm s pResult pchFile env).run = r) ∧
    (env.send1 + env.send2
        = ((sizeof_Packet_File_Generic_Path + pchFile.length : Nat) : Int) →
      env.recvRes = (sizeof_Packet_General_Result : Int) →
      (FileExists P hm s pResult pchFile env).run = r) := by
  obtain ⟨hs, hs'⟩ := send_path_command_result hm s P.CMD_EXISTS pchFile env.send1 env.send2
  obtain ⟨hr, hr'⟩ := hrecv
  rcases hsend : SendGenericPathCommand hm s P.CMD_EXISTS pchFile env.send1 env.send2
    with ⟨tr, o⟩
  rcases hrcv : ReceiveFixedSizePacket hm s sizeof_Packet_General_Result env.recvRes
    env.pkt.hdr (env.pkt.body ++ env.beyond) with ⟨tr2, c⟩
  rw [hsend] at hs hs'
  rw [hrcv] at hr hr'
  simp only at hs hs' hr hr'
  constructor
  · rcases hs with rfl | rfl
    · left
      simp [FileExists, hop, hsend]
    · rcases hr with rfl | rfl
      · left
        simp [FileExists, hop, hsend, ReceiveGenericResult, hrcv]
      · right
        rcases he with ⟨rfl, rfl⟩ | ⟨rfl, rfl⟩ <;>
          simp [FileExists, hop, hsend, ReceiveGenericResult, hrcv]
  · intro h1 h2
    rw [hs' h1] at hsend
    rw [hr' h2] at hrcv
    rcases he with ⟨rfl, rfl⟩ | ⟨rfl, rfl⟩ <;>
      simp [FileExists, hop, hsend, ReceiveGenericResult, hrcv]

theorem GetFileSize_unverified (P : Protocol) (hm : HmacFn) (s : Session)
    (hop : s.m_state = NCState.Operation) (result : Int) (pchFile : Bytes)
    (env : PathEnv Packet_File_Size_Result) (e : CallEnd) (r : Run Int)
    (hrecv : ((ReceiveFixedSizePacket hm s sizeof_Packet_File_Size_Result env.recvRes
          env.pkt.hdr (env.pkt.body ++ env.beyond)).2 = CallEnd.aborted ∨
        (ReceiveFixedSizePacket hm s sizeof_Packet_File_Size_Result env.recvRes
          env.pkt.hdr (env.pkt.body ++ env.beyond)).2 = e) ∧
      (env.recvRes = (sizeof_Packet_File_Size_Result : Int) →
        (ReceiveFixedSizePacket hm s sizeof_Packet_File_Size_Result env.recvRes
          env.pkt.hdr (env.pkt.body ++ env.beyond)).2 = e))
    (he : (e = CallEnd.ret NetCloudResult.Unauthorized
          ∧ r = Run.done NetCloudResult.Unauthorized s result) ∨
        (e = CallEnd.undefined ∧ r = Run.undefined)) :
    ((GetFileSize P hm s result pchFile env).run = Run.aborted ∨
      (GetFileSize P hm s result pchFile env).run = r) ∧
    (env.send1 + env.send2
        = ((sizeof_Packet_File_Generic_Path + pchFile.length : Nat) : Int) →
      env.recvRes = (sizeof_Packet_File_Size_Result : Int) →
      (GetFileSize P hm s result pchFile env).run = r) := by
  obtain ⟨hs, hs'⟩ := send_path_command_result hm s P.CMD_SIZE pchFile env.send1 env.send2
  obtain ⟨hr, hr'⟩ := hrecv
  rcases hsend : SendGenericPathCommand hm s P.CMD_SIZE pchFile env.send1 env.send2
    with ⟨tr, o⟩
  rcases hrcv : ReceiveFixedSizePacket hm s sizeof_Packet_File_Size_Result env.recvRes
    env.pkt.hdr (env.pkt.body ++ env.beyond) with ⟨tr2, c⟩
  rw [hsend] at hs hs'
  rw [hrcv] at hr hr'
  simp only at hs hs' hr hr'
  constructor
  · rcases hs with rfl | rfl
    · left
      simp [GetFileSize, hop, hsend]
    · rcases hr with rfl | rfl
      · left
        simp [GetFileSize, hop, hsend, hrcv]
      · right
        rcases he with ⟨rfl, rfl⟩ | ⟨rfl, rfl⟩ <;>
          simp [GetFileSize, hop, hsend, hrcv]
  · intro h1 h2
    rw [hs' h1] at hsend
    rw [hr' h2] at hrcv
    rcases he with ⟨rfl, rfl⟩ | ⟨rfl, rfl⟩ <;>
      simp [GetFileSize, hop, hsend, hrcv]

/-- C7: in state Operation, when the result packet that was received fails MAC
verification under the session key (`CheckHMAC` returns false), `FileWrite`
returns Fail, and each of `FileExists`, `FileDelete` and `GetFileSize` either
is aborted by a failed transfer-size assertion or returns Unauthorized with the
caller's output equal to its value before the call (and it does return so when
both sends and the receive are complete); when `CheckHMAC` faults on the packet
instead, the operation returns nothing (or is aborted by such an assertion).
In neither case does an operation return OK or change the caller's output,
whatever the packet's result field. -/
theorem unverified_result_is_not_used (P : Protocol) (hm : HmacFn) (s : Session)
    (hop : s.m_state = NCState.Operation) :
    (∀ (pchFile pvData : Bytes) (cubData : Nat) (env : WriteEnv),
      (AuthenticateServerPacket hm env.wrr.hdr (env.wrr.body ++ env.beyond)
          s.m_sessionKey = some false →
        (FileWrite P hm s pchFile pvData cubData env).run
          = Run.done NetCloudResult.Fail s ()) ∧
      (AuthenticateServerPacket hm env.wrr.hdr (env.wrr.body ++ env.beyond)
          s.m_sessionKey = none →
        (FileWrite P hm s pchFile pvData cubData env).run = Run.undefined)) ∧
    (∀ (pResult : Bool) (pchFile : Bytes) (env : PathEnv Packet_General_Result),
      (AuthenticateServerPacket hm env.pkt.hdr (env.pkt.body ++ env.beyond)
          s.m_sessionKey = some false →
        ((FileExists P hm s pResult pchFile env).run = Run.aborted ∨
          (FileExists P hm s pResult pchFile env).run
            = Run.done NetCloudResult.Unauthorized s pResult) ∧
        (env.send1 + env.send2
            = ((sizeof_Packet_File_Generic_Path + pchFile.length : Nat) : Int) →
          env.recvRes = (sizeof_Packet_General_Result : Int) →
          (FileExists P hm s pResult pchFile env).run
            = Run.done NetCloudResult.Unauthorized s pResult)) ∧
      (AuthenticateServerPacket hm env.pkt.hdr (env.pkt.body ++ env.beyond)
          s.m_sessionKey = none →
        ((FileExists P hm s pResult pchFile env).run = Run.aborted ∨
          (FileExists P hm s pResult pchFile env).run = Run.undefined) ∧
        (env.send1 + env.send2
            = ((sizeof_Packet_File_Generic_Path + pchFile.length : Nat) : Int) →
          env.recvRes = (sizeof_Packet_General_Result : Int) →
          (FileExists P hm s pResult pchFile env).run = Run.undefined))) ∧
    (∀ (pResult : Bool) (pchFile : Bytes) (env : PathEnv Packet_General_Result),
      (AuthenticateServerPacket hm env.pkt.hdr (env.pkt.body ++ env.beyond)
          s.m_sessionKey = some false →
        ((FileDelete P hm s pResult pchFile env).run = Run.aborted ∨
          (FileDelete P hm s pResult pchFile env).run
            = Run.done NetCloudResult.Unauthorized s pResult) ∧
        (env.send1 + env.send2
            = ((sizeof_Packet_File_Generic_Path + pchFile.length : Nat) : Int) →
          env.recvRes = (sizeof_Packet_General_Result : Int) →
          (FileDelete P hm s pResult pchFile env).run
            = Run.done NetCloudResult.Unauthorized s pResult)) ∧
      (AuthenticateServerPacket hm env.pkt.hdr (env.pkt.body ++ env.beyond)
          s.m_sessionKey = none →
        ((FileDelete P hm s pResult pchFile env).run = Run.aborted ∨
          (FileDelete P hm s pResult pchFile env).run = Run.undefined) ∧
        (env.send1 + env.send2
            = ((sizeof_Packet_File_Generic_Path + pchFile.length : Nat) : Int) →
          env.recvRes = (sizeof_Packet_General_Result : Int) →
          (FileDelete P hm s pResult pchFile env).run = Run.undefined))) ∧
    (∀ (result : Int) (pchFile : Bytes) (env : PathEnv Packet_File_Size_Result),
      (AuthenticateServerPacket hm env.pkt.hdr (env.pkt.body ++ env.beyond)
          s.m_sessionKey = some false →
        ((GetFileSize P hm s result pchFile env).run = Run.aborted ∨
          (GetFileSize P hm s result pchFile env).run
            = Run.done NetCloudResult.Unauthorized s result) ∧
        (env.send1 + env.send2
            = ((sizeof_Packet_File_Generic_Path + pchFile.length : Nat) : Int) →
          env.recvRes = (sizeof_Packet_File_Size_Result : Int) →
          (GetFileSize P hm s result pchFile env).run
            = Run.done NetCloudResult.Unauthorized s result)) ∧
      (AuthenticateServerPacket hm env.pkt.hdr (env.pkt.body ++ env.beyond)
          s.m_sessionKey = none →
        ((GetFileSize P hm s result pchFile env).run = Run.aborted ∨
          (GetFileSize P hm s result pchFile env).run = Run.undefined) ∧
        (env.send1 + env.send2
            = ((sizeof_Packet_File_Generic_Path + pchFile.length : Nat) : Int) →
          env.recvRes = (sizeof_Packet_File_Size_Result : Int) →
          (GetFileSize P hm s result pchFile env).run = Run.undefined))) := by
  refine ⟨?_, ?_, ?_, ?_⟩
  · intro pchFile pvData cubData env
    constructor
    · intro hbad
      simp only [FileWrite, hop, if_true, hbad]
    · intro hbad
      simp only [FileWrite, hop, if_true, hbad]
  · intro pResult pchFile env
    constructor
    · intro hbad
      exact FileExists_unverified P hm s hop pResult pchFile env _ _
        (receive_of_rejected hm s _ env.recvRes _ _ hbad) (Or.inl ⟨rfl, rfl⟩)
    · intro hbad
      exact FileExists_unverified P hm s hop pResult pchFile env _ _
        (receive_of_fault hm s _ env.recvRes _ _ hbad) (Or.inr ⟨rfl, rfl⟩)
  · intro pResult pchFile env
    constructor
    · intro hbad
      exact FileExists_unverified P hm s hop pResult pchFile env _ _
        (receive_of_rejected hm s _ env.recvRes _ _ hbad) (Or.inl ⟨rfl, rfl⟩)
    · intro hbad
      exact FileExists_unverified P hm s hop pResult pchFile env _ _
        (receive_of_fault hm s _ env.recvRes _ _ hbad) (Or.inr ⟨rfl, rfl⟩)
  · intro result pchFile env
    constructor
    · intro hbad
      exact GetFileSize_unverified P hm s hop result pchFile env _ _
        (receive_of_rejected hm s _ env.recvRes _ _ hbad) (Or.inl ⟨rfl, rfl⟩)
    · intro hbad
      exact GetFileSize_unverified P hm s hop result pchFile env _ _
        (receive_of_fault hm s _ env.recvRes _ _ hbad) (Or.inr ⟨rfl, rfl⟩)

/-- C7 at a concrete call: `FileExists` with a stale output of `false` receives a
result packet whose result byte is 1 and whose MAC does not verify. -/
theorem unverified_result_is_not_used_witness :
    (FileExists exampleProtocol toyHmac (exampleSession NCState.Operation) false [97]
        (examplePathEnv (exampleBadGeneralResult 1))).run
      = Run.done NetCloudResult.Unauthorized (exampleSession NCState.Operation) false :=
  (((unverified_result_is_not_used exampleProtocol toyHmac
      (exampleSession NCState.Operation) rfl).2.1 false [97]
      (examplePathEnv (exampleBadGeneralResult 1))).1 (by decide)).2 (by decide) (by decide)

/-! ## Logout -/

/-- C10 as stated fails: `Login` leaves `exampleLoggedInSession` after the
successful example handshake; `Logout` on it returns OK after closing socket 7,
and the session key bytes are the ones held before, not zeroes; a second
`Logout` on the session so obtained deletes the dangling key pointer again, so
it returns nothing rather than OK; and the same session with a socket handle
of 0 keeps the handle, with no `closesocket`. -/
theorem Logout_keeps_session_key :
    (Login exampleProtocol toyHmac (Session.new []) 1 exampleUserKey 2
        (exampleLoginEnv (exampleAuthResult 1))).run
      = Run.done NetCloudResult.OK exampleLoggedInSession () ∧
    Logout exampleLoggedInSession
      = ⟨[NetEvent.closesocket 7],
          Run.done NetCloudResult.OK
            { m_hSocket := INVALID_SOCKET, m_pchKey := KeyPtr.freed, m_iUserID := 0,
              m_sessionKey := exampleLoginKey, m_state := NCState.LoggedOut } ()⟩ ∧
    exampleLoginKey ≠ List.replicate SESSION_KEY_LEN 0 ∧
    (Logout { m_hSocket := INVALID_SOCKET, m_pchKey := KeyPtr.freed, m_iUserID := 0,
              m_sessionKey := exampleLoginKey, m_state := NCState.LoggedOut }).run
      = Run.undefined ∧
    Logout { exampleLoggedInSession with m_hSocket := 0 }
      = ⟨[], Run.done NetCloudResult.OK
          { m_hSocket := 0, m_pchKey := KeyPtr.freed, m_iUserID := 0,
            m_sessionKey := exampleLoginKey, m_state := NCState.LoggedOut } ()⟩ := by
  refine ⟨by decide, by decide, by decide, by decide, by decide⟩

/-- C10 as amended: for every session (in any of the four states) whose socket
handle is not 0 and whose key copy has not been freed by an earlier `Logout`,
`Logout` returns OK and leaves the socket handle `INVALID_SOCKET`, the user id
0, the state LoggedOut and the session key bytes as they were; when the handle
was that of a socket (not `INVALID_SOCKET`), the transport calls made are
exactly one `closesocket` on it. -/
theorem Logout_closes_and_resets (s : Session)
    (hsock : s.m_hSocket ≠ 0) (hkey : s.m_pchKey ≠ KeyPtr.freed) :
    ∃ s', (Logout s).run = Run.done NetCloudResult.OK s' () ∧
      s'.m_hSocket = INVALID_SOCKET ∧ s'.m_iUserID = 0 ∧
      s'.m_state = NCState.LoggedOut ∧ s'.m_sessionKey = s.m_sessionKey ∧
      (s.m_hSocket ≠ INVALID_SOCKET →
        (Logout s).trace = [NetEvent.closesocket s.m_hSocket]) := by
  rcases s with ⟨h, k, u, key, st⟩
  simp only at hsock hkey
  cases k with
  | freed => exact absurd rfl hkey
  | null =>
    refine ⟨{ m_hSocket := INVALID_SOCKET, m_pchKey := KeyPtr.null, m_iUserID := 0,
              m_sessionKey := key, m_state := NCState.LoggedOut },
      by simp only [Logout, hsock, ne_eq, not_false_eq_true, if_true],
      rfl, rfl, rfl, rfl, fun _ => ?_⟩
    simp only [Logout, hsock, ne_eq, not_false_eq_true, if_true]
  | live k =>
    refine ⟨{ m_hSocket := INVALID_SOCKET, m_pchKey := KeyPtr.freed, m_iUserID := 0,
              m_sessionKey := key, m_state := NCState.LoggedOut },
      by simp only [Logout, hsock, ne_eq, not_false_eq_true, if_true],
      rfl, rfl, rfl, rfl, fun _ => ?_⟩
    simp only [Logout, hsock, ne_eq, not_false_eq_true, if_true]

/-- C10 as amended, at the session that `Login` leaves after the successful
example handshake (state Operation, socket 7, live key copy). -/
theorem Logout_closes_and_resets_witness :
    ∃ s', (Logout exampleLoggedInSession).run = Run.done NetCloudResult.OK s' () ∧
      s'.m_hSocket = INVALID_SOCKET ∧ s'.m_iUserID = 0 ∧
      s'.m_state = NCState.LoggedOut ∧
      s'.m_sessionKey = exampleLoggedInSession.m_sessionKey ∧
      (exampleLoggedInSession.m_hSocket ≠ INVALID_SOCKET →
        (Logout exampleLoggedInSession).trace
          = [NetEvent.closesocket exampleLoggedInSession.m_hSocket]) :=
  Logout_closes_and_resets exampleLoggedInSession (by decide) (by decide)

/-! ## FileRead -/

theorem recvLoopStep_eq (payload : Nat → RecvOutcome) (sock : Nat) (st : ReadLoop) :
    recvLoopStep payload sock st =
      { cubRecvLeft := st.cubRecvLeft
          - (((payload st.calls).bytes.take st.cubRecvLeft.toNat).length : Nat),
        ctx := st.ctx ++ (payload st.calls).bytes.take st.cubRecvLeft.toNat,
        written := st.written ++ (payload st.calls).bytes.take st.cubRecvLeft.toNat,
        calls := st.calls + 1,
        trace := st.trace ++ [NetEvent.recv sock st.cubRecvLeft.toNat] } := by
  unfold recvLoopStep
  cases hp : payload st.calls with
  | error => simp [recvInto, RecvOutcome.bytes]
  | data d =>
    simp only [recvInto, RecvOutcome.bytes]
    by_cases hpos : (((d.take st.cubRecvLeft.toNat).length : Nat) : Int) > 0
    · simp only [hpos, if_true]
    · simp only [hpos, if_false]
      have hnil : d.take st.cubRecvLeft.toNat = [] := by
        have : (d.take st.cubRecvLeft.toNat).length = 0 := by omega
        exact List.length_eq_zero.mp this
      simp [hnil]

theorem recvLoop_of_nonpos (payload : Nat → RecvOutcome) (sock fuel : Nat) (st : ReadLoop)
    (h : st.cubRecvLeft ≤ 0) : recvLoop payload sock fuel st = st := by
  cases fuel with
  | zero => rfl
  | succ f => simp only [recvLoop, not_lt.mpr h, if_false, gt_iff_lt]

theorem recvLoop_receives (payload : Nat → RecvOutcome) (sock : Nat) :
    ∀ (n fuel : Nat) (st : ReadLoop), n ≤ fuel →
      st.cubRecvLeft.toNat ≤ (offered payload st.calls n).length →
      (recvLoop payload sock fuel st).cubRecvLeft ≤ 0 ∧
      (recvLoop payload sock fuel st).ctx
        = st.ctx ++ (offered payload st.calls n).take st.cubRecvLeft.toNat ∧
      (recvLoop payload sock fuel st).written
        = st.written ++ (offered payload st.calls n).take st.cubRecvLeft.toNat := by
  intro n
  induction n with
  | zero =>
    intro fuel st _ hlen
    have hle : st.cubRecvLeft ≤ 0 := by
      simp only [offered, List.length_nil] at hlen
      omega
    rw [recvLoop_of_nonpos payload sock fuel st hle]
    have h0 : st.cubRecvLeft.toNat = 0 := by omega
    simp [h0, hle]
  | succ n ih =>
    intro fuel st hfuel hlen
    by_cases hle : st.cubRecvLeft ≤ 0
    · rw [recvLoop_of_nonpos payload sock fuel st hle]
      have h0 : st.cubRecvLeft.toNat = 0 := by omega
      simp [h0, hle]
    · obtain ⟨f, rfl⟩ : ∃ f, fuel = f + 1 := ⟨fuel - 1, by omega⟩
      have hpos : st.cubRecvLeft > 0 := by omega
      simp only [recvLoop, hpos, if_true]
      rw [recvLoopStep_eq]
      simp only [offered, List.length_append] at hlen
      have htake : ((payload st.calls).bytes.take st.cubRecvLeft.toNat).length
          = min st.cubRecvLeft.toNat (payload st.calls).bytes.length := List.length_take _ _
      have hnext : (st.cubRecvLeft
            - (((payload st.calls).bytes.take st.cubRecvLeft.toNat).length : Nat)).toNat
          = st.cubRecvLeft.toNat - (payload st.calls).bytes.length := by
        rw [htake]
        omega
      obtain ⟨h1, h2, h3⟩ := ih f
        { cubRecvLeft := st.cubRecvLeft
            - (((payload st.calls).bytes.take st.cubRecvLeft.toNat).length : Nat),
          ctx := st.ctx ++ (payload st.calls).bytes.take st.cubRecvLeft.toNat,
          written := st.written ++ (payload st.calls).bytes.take st.cubRecvLeft.toNat,
          calls := st.calls + 1,
          trace := st.trace ++ [NetEvent.recv sock st.cubRecvLeft.toNat] }
        (by omega) (by simp only [hnext]; omega)
      simp only [hnext] at h2 h3
      refine ⟨h1, ?_, ?_⟩
      · rw [h2, offered, List.take_append_eq_append_take, List.append_assoc]
      · rw [h3, offered, List.take_append_eq_append_take, List.append_assoc]

theorem recvLoop_trace (payload : Nat → RecvOutcome) (sock : Nat) :
    ∀ (fuel : Nat) (st : ReadLoop),
      ∃ ext, (recvLoop payload sock fuel st).trace = st.trace ++ ext := by
  intro fuel
  induction fuel with
  | zero => intro st; exact ⟨[], by simp [recvLoop]⟩
  | succ f ih =>
    intro st
    by_cases hpos : st.cubRecvLeft > 0
    · obtain ⟨ext, hext⟩ := ih (recvLoopStep payload sock st)
      refine ⟨[NetEvent.recv sock st.cubRecvLeft.toNat] ++ ext, ?_⟩
      simp only [recvLoop, hpos, if_true, hext]
      rw [recvLoopStep_eq]
      simp
    · exact ⟨[], by simp [recvLoop, hpos]⟩

theorem recvLoop_stuck (payload : Nat → RecvOutcome) (sock : Nat)
    (hnone : ∀ i, (payload i).bytes = []) :
    ∀ (fuel : Nat) (st : ReadLoop),
      (recvLoop payload sock fuel st).cubRecvLeft = st.cubRecvLeft := by
  intro fuel
  induction fuel with
  | zero => intro st; rfl
  | succ f ih =>
    intro st
    by_cases hpos : st.cubRecvLeft > 0
    · simp only [recvLoop, hpos, if_true]
      rw [ih, recvLoopStep_eq]
      simp [hnone]
    · simp only [recvLoop, hpos, if_false]

/-- C4: for every `FileRead` call in state Operation whose result header
declares `readBytes <= capacity` and whose payload is fully received (the
first `n` payload receives find at least `readBytes` bytes, and the loop may
run `n` times): if the MAC received in the header equals the digest, under the
session key, of the header with its MAC field zeroed followed by the payload
bytes in the order received, `FileRead` returns OK with the byte count set to
`readBytes`; otherwise it returns Fail with the byte count set to -1. -/
theorem FileRead_result_follows_mac (P : Protocol) (hm : HmacFn) (s : Session)
    (pchFile : Bytes) (out : ReadOut) (env : ReadEnv) (n fuel : Nat)
    (hop : s.m_state = NCState.Operation)
    (hcap : env.rrr.readBytes ≤ out.cubData)
    (hrecv : env.rrr.readBytes.toNat ≤ (offered env.payload 0 n).length)
    (hfuel : n ≤ fuel) :
    (env.rrr.hdr.hmac
        = hm s.m_sessionKey (env.rrr.zeroedBytes
            ++ (offered env.payload 0 n).take env.rrr.readBytes.toNat) →
      (FileRead P hm s pchFile out env fuel).run
        = Run.done NetCloudResult.OK s
            { pvData := (offered env.payload 0 n).take env.rrr.readBytes.toNat
                ++ out.pvData.drop
                  ((offered env.payload 0 n).take env.rrr.readBytes.toNat).length,
              cubData := env.rrr.readBytes }) ∧
    (env.rrr.hdr.hmac
        ≠ hm s.m_sessionKey (env.rrr.zeroedBytes
            ++ (offered env.payload 0 n).take env.rrr.readBytes.toNat) →
      (FileRead P hm s pchFile out env fuel).run
        = Run.done NetCloudResult.Fail s
            { pvData := (offered env.payload 0 n).take env.rrr.readBytes.toNat
                ++ out.pvData.drop
                  ((offered env.payload 0 n).take env.rrr.readBytes.toNat).length,
              cubData := -1 }) := by
  obtain ⟨h1, h2, h3⟩ := recvLoop_receives env.payload s.m_hSocket n fuel
    { cubRecvLeft := env.rrr.readBytes, ctx := env.rrr.zeroedBytes, written := [],
      calls := 0,
      trace := [NetEvent.send s.m_hSocket
                  ((signedReadRequest P hm s pchFile out.cubData).hdr.bytes
                    ++ (signedReadRequest P hm s pchFile out.cubData).body),
                NetEvent.send s.m_hSocket
                  (pchFile.take (signedReadRequest P hm s pchFile out.cubData).cubFileName),
                NetEvent.recv s.m_hSocket sizeof_Packet_File_Read_Result] }
    hfuel hrecv
  simp only [List.nil_append] at h3
  have hnot : ¬ (recvLoop env.payload s.m_hSocket fuel
      { cubRecvLeft := env.rrr.readBytes, ctx := env.rrr.zeroedBytes, written := [],
        calls := 0,
        trace := [NetEvent.send s.m_hSocket
                    ((signedReadRequest P hm s pchFile out.cubData).hdr.bytes
                      ++ (signedReadRequest P hm s pchFile out.cubData).body),
                  NetEvent.send s.m_hSocket
                    (pchFile.take (signedReadRequest P hm s pchFile out.cubData).cubFileName),
                  NetEvent.recv s.m_hSocket sizeof_Packet_File_Read_Result] }).cubRecvLeft
        > 0 := by omega
  constructor
  · intro hmac
    simp only [FileRead, hop, if_true, hcap, not_true_eq_false, if_false, hnot, h2, h3,
      hmac]
  · intro hmac
    have hmac' : ¬ hm s.m_sessionKey (env.rrr.zeroedBytes
        ++ (offered env.payload 0 n).take env.rrr.readBytes.toNat) = env.rrr.hdr.hmac :=
      fun h => hmac h.symm
    simp only [FileRead, hop, if_true, hcap, not_true_eq_false, if_false, hnot, h2, h3,
      hmac']

/-- C4 at a concrete read: the header declares 3 bytes for a capacity of 4, the
payload arrives as two bytes and then one of three offered, and the MAC is the
digest of the zeroed header followed by those 3 bytes. -/
theorem FileRead_result_follows_mac_witness :
    (FileRead exampleProtocol toyHmac (exampleSession NCState.Operation) [97]
        { pvData := [0, 0, 0, 0], cubData := 4 }
        { rrr := exampleReadResult 3 [1, 2, 3], payload := exampleChunks } 5).run
      = Run.done NetCloudResult.OK (exampleSession NCState.Operation)
          { pvData := [1, 2, 3, 0], cubData := 3 } :=
  (FileRead_result_follows_mac exampleProtocol toyHmac (exampleSession NCState.Operation)
    [97] { pvData := [0, 0, 0, 0], cubData := 4 }
    { rrr := exampleReadResult 3 [1, 2, 3], payload := exampleChunks } 2 5
    rfl (by decide) (by decide) (by decide)).1 (by decide)

/-- C5 as stated fails: a result header that declares 5 bytes for a capacity of
4 does not make `FileRead` return an error result; the call is aborted by the
failed `assert(rrr.readBytes <= *cubData)`. -/
theorem FileRead_oversize_header_aborts :
    (FileRead exampleProtocol toyHmac (exampleSession NCState.Operation) [97]
        { pvData := [0, 0, 0, 0], cubData := 4 }
        { rrr := exampleReadResult 5 [1, 2, 3, 4, 5], payload := exampleChunks } 5).run
      = Run.aborted ∧
    ¬ ∃ res s' out',
      (FileRead exampleProtocol toyHmac (exampleSession NCState.Operation) [97]
        { pvData := [0, 0, 0, 0], cubData := 4 }
        { rrr := exampleReadResult 5 [1, 2, 3, 4, 5], payload := exampleChunks } 5).run
      = Run.done res s' out' := by
  have h : (FileRead exampleProtocol toyHmac (exampleSession NCState.Operation) [97]
        { pvData := [0, 0, 0, 0], cubData := 4 }
        { rrr := exampleReadResult 5 [1, 2, 3, 4, 5], payload := exampleChunks } 5).run
      = Run.aborted := by decide
  refine ⟨h, ?_⟩
  rintro ⟨res, s', out', hdone⟩
  rw [h] at hdone
  cases hdone

/-- C5 as amended: for every `FileRead` call in state Operation with capacity
`c`, the first transport call sends the signed request, whose `maxReadBytes`
field is exactly `c`; and if the received result header declares more than `c`
bytes, the call is aborted by the failed assertion after exactly three
transport calls (the two sends of the request and the receive of the header),
so before any payload byte is received or stored in the destination. -/
theorem FileRead_declares_capacity_and_stops_oversize (P : Protocol) (hm : HmacFn)
    (s : Session) (pchFile : Bytes) (out : ReadOut) (env : ReadEnv) (fuel : Nat)
    (hop : s.m_state = NCState.Operation) :
    (FileRead P hm s pchFile out env fuel).trace.head?
      = some (NetEvent.send s.m_hSocket
          ((signedReadRequest P hm s pchFile out.cubData).hdr.bytes
            ++ (signedReadRequest P hm s pchFile out.cubData).body)) ∧
    (signedReadRequest P hm s pchFile out.cubData).maxReadBytes = out.cubData ∧
    (out.cubData < env.rrr.readBytes →
      FileRead P hm s pchFile out env fuel
        = ⟨[NetEvent.send s.m_hSocket
              ((signedReadRequest P hm s pchFile out.cubData).hdr.bytes
                ++ (signedReadRequest P hm s pchFile out.cubData).body),
            NetEvent.send s.m_hSocket pchFile,
            NetEvent.recv s.m_hSocket sizeof_Packet_File_Read_Result],
           Run.aborted⟩) := by
  refine ⟨?_, rfl, ?_⟩
  · obtain ⟨ext, hext⟩ := recvLoop_trace env.payload s.m_hSocket fuel
      { cubRecvLeft := env.rrr.readBytes, ctx := env.rrr.zeroedBytes, written := [],
        calls := 0,
        trace := [NetEvent.send s.m_hSocket
                    ((signedReadRequest P hm s pchFile out.cubData).hdr.bytes
                      ++ (signedReadRequest P hm s pchFile out.cubData).body),
                  NetEvent.send s.m_hSocket
                    (pchFile.take (signedReadRequest P hm s pchFile out.cubData).cubFileName),
                  NetEvent.recv s.m_hSocket sizeof_Packet_File_Read_Result] }
    simp only [FileRead, hop, if_true]
    split_ifs <;> simp [hext]
  · intro hover
    have hnot : ¬ env.rrr.readBytes ≤ out.cubData := by omega
    simp only [FileRead, hop, if_true, hnot, not_false_eq_true]
    simp [signedReadRequest, readRequest]

/-- C5 as amended, at a concrete read: capacity 4, header declaring 5 bytes. -/
theorem FileRead_declares_capacity_and_stops_oversize_witness :
    (signedReadRequest exampleProtocol toyHmac (exampleSession NCState.Operation) [97]
        4).maxReadBytes = 4 ∧
    (FileRead exampleProtocol toyHmac (exampleSession NCState.Operation) [97]
        { pvData := [0, 0, 0, 0], cubData := 4 }
        { rrr := exampleReadResult 5 [1, 2, 3, 4, 5], payload := exampleChunks } 5).trace.length
      = 3 :=
  ⟨(FileRead_declares_capacity_and_stops_oversize exampleProtocol toyHmac
      (exampleSession NCState.Operation) [97] { pvData := [0, 0, 0, 0], cubData := 4 }
      { rrr := exampleReadResult 5 [1, 2, 3, 4, 5], payload := exampleChunks } 5 rfl).2.1,
   by
    rw [(FileRead_declares_capacity_and_stops_oversize exampleProtocol toyHmac
      (exampleSession NCState.Operation) [97] { pvData := [0, 0, 0, 0], cubData := 4 }
      { rrr := exampleReadResult 5 [1, 2, 3, 4, 5], payload := exampleChunks } 5 rfl).2.2
      (by decide)]
    rfl⟩

theorem FileRead_stuck (P : Protocol) (hm : HmacFn) (s : Session) (pchFile : Bytes)
    (out : ReadOut) (env : ReadEnv) (fuel : Nat)
    (hop : s.m_state = NCState.Operation)
    (hcap : env.rrr.readBytes ≤ out.cubData) (hpos : 0 < env.rrr.readBytes)
    (hnone : ∀ i, (env.payload i).bytes = []) :
    (FileRead P hm s pchFile out env fuel).run = Run.outOfFuel := by
  have hstuck := recvLoop_stuck env.payload s.m_hSocket hnone fuel
    { cubRecvLeft := env.rrr.readBytes, ctx := env.rrr.zeroedBytes, written := [],
      calls := 0,
      trace := [NetEvent.send s.m_hSocket
                  ((signedReadRequest P hm s pchFile out.cubData).hdr.bytes
                    ++ (signedReadRequest P hm s pchFile out.cubData).body),
                NetEvent.send s.m_hSocket
                  (pchFile.take (signedReadRequest P hm s pchFile out.cubData).cubFileName),
                NetEvent.recv s.m_hSocket sizeof_Packet_File_Read_Result] }
  have hgt : (recvLoop env.payload s.m_hSocket fuel
      { cubRecvLeft := env.rrr.readBytes, ctx := env.rrr.zeroedBytes, written := [],
        calls := 0,
        trace := [NetEvent.send s.m_hSocket
                    ((signedReadRequest P hm s pchFile out.cubData).hdr.bytes
                      ++ (signedReadRequest P hm s pchFile out.cubData).body),
                  NetEvent.send s.m_hSocket
                    (pchFile.take (signedReadRequest P hm s pchFile out.cubData).cubFileName),
                  NetEvent.recv s.m_hSocket sizeof_Packet_File_Read_Result] }).cubRecvLeft
        > 0 := by
    rw [hstuck]
    exact hpos
  simp only [FileRead, hop, if_true, hcap, not_true_eq_false, if_false, hgt]

/-- C8 (the code at a transport that fails during the payload): with a header
that declares 3 bytes for a capacity of 4, on a transport whose every receive
returns 0 the loop never ends, for any number of iterations, so `FileRead`
returns nothing; and on a transport whose first payload receive returns an
error and whose next one delivers the bytes, `FileRead` returns OK with a byte
count of 3, not Network. -/
theorem FileRead_ignores_failed_receive :
    (∀ fuel : Nat,
      (FileRead exampleProtocol toyHmac (exampleSession NCState.Operation) [97]
          { pvData := [0, 0, 0, 0], cubData := 4 }
          { rrr := exampleReadResult 3 [1, 2, 3], payload := closedTransport } fuel).run
        = Run.outOfFuel) ∧
    (FileRead exampleProtocol toyHmac (exampleSession NCState.Operation) [97]
        { pvData := [0, 0, 0, 0], cubData := 4 }
        { rrr := exampleReadResult 3 [1, 2, 3], payload := errorThenData } 2).run
      = Run.done NetCloudResult.OK (exampleSession NCState.Operation)
          { pvData := [1, 2, 3, 0], cubData := 3 } := by
  refine ⟨fun fuel => ?_, by decide⟩
  exact FileRead_stuck exampleProtocol toyHmac (exampleSession NCState.Operation) [97]
    { pvData := [0, 0, 0, 0], cubData := 4 }
    { rrr := exampleReadResult 3 [1, 2, 3], payload := closedTransport } fuel
    rfl (by decide) (by decide) (fun _ => rfl)

/-! ## Server: HandleFileExists -/

theorem sendExistsResult_trace (P : Protocol) (D : ServerDeps) (cli : Client)
    (env : HandlerEnv) (calls : List ServerEvent) (result : Nat) :
    (sendExistsResult P D cli env calls result).trace
      = calls ++ [ServerEvent.send cli.socket
          (Packet_Header.bytes
              (D.SignServerPacket
                { cmd := P.CMD_EXISTS, len := sizeof_Packet_File_Write_Result,
                  hmac := env.uninit }
                (le 1 result) cli.sessionKey)
            ++ le 1 result)
          sizeof_Packet_File_Write_Result] := by
  unfold sendExistsResult
  split_ifs <;> rfl

theorem sendExistsResult_run (P : Protocol) (D : ServerDeps) (cli : Client)
    (env : HandlerEnv) (calls : List ServerEvent) (result : Nat) :
    (sendExistsResult P D cli env calls result).run
      = if env.sendRes = (sizeof_Packet_File_Write_Result : Int) then HandlerRun.returned
        else HandlerRun.aborted := by
  unfold sendExistsResult
  split_ifs <;> first | rfl | contradiction

/-- `HandleFileExists` on a request whose name copy stays inside memory (or
that does not authenticate, so that no copy is made): it makes exactly one
`send`, on the socket of the connection, of the fixed-size result structure
signed by `SignServerPacket` with the session key of the connection, and never
closes the socket; the result byte of that structure is 1 exactly when
`AuthenticateClientPacket` accepts the request and `fopen_nc` opens, for the
user id and app id of the client, the file named by the bytes received after
the request up to the first zero byte, and is 0 otherwise; when authentication
fails the byte is 0 and `fopen_nc` is not called.  The handler returns when the
send is complete. -/
theorem HandleFileExists_sends_one_signed_result (P : Protocol) (D : ServerDeps)
    (cli : Client) (pkt : Packet_File_Generic_Path) (trailing : Bytes) (env : HandlerEnv)
    (hname : D.AuthenticateClientPacket pkt.hdr (pkt.body ++ trailing) pkt.hdr.len cli = true →
      pkt.cubFileName + 1 < 2 ^ 32 ∧ pkt.cubFileName ≤ trailing.length) :
    ∃ result : Nat,
      (HandleFileExists P D cli pkt trailing env).trace.filter ServerEvent.isSend
        = [ServerEvent.send cli.socket
            (Packet_Header.bytes
                (D.SignServerPacket
                  { cmd := P.CMD_EXISTS, len := sizeof_Packet_File_Write_Result,
                    hmac := env.uninit }
                  (le 1 result) cli.sessionKey)
              ++ le 1 result)
            sizeof_Packet_File_Write_Result] ∧
      (∀ sock, ServerEvent.close sock ∉ (HandleFileExists P D cli pkt trailing env).trace) ∧
      (result = 1 ↔
        (D.AuthenticateClientPacket pkt.hdr (pkt.body ++ trailing) pkt.hdr.len cli = true ∧
          D.fopen_nc ((trailing.take pkt.cubFileName).takeWhile (fun b => b != 0)) modeRb
            cli.userID cli.appID = true)) ∧
      (result = 1 ∨ result = 0) ∧
      (D.AuthenticateClientPacket pkt.hdr (pkt.body ++ trailing) pkt.hdr.len cli = true ∨
        (result = 0 ∧ ∀ filename mode userID appID,
          ServerEvent.fopen_nc filename mode userID appID
            ∉ (HandleFileExists P D cli pkt trailing env).trace)) ∧
      (HandleFileExists P D cli pkt trailing env).run
        = if env.sendRes = (sizeof_Packet_File_Write_Result : Int) then HandlerRun.returned
          else HandlerRun.aborted := by
  by_cases hauth :
      D.AuthenticateClientPacket pkt.hdr (pkt.body ++ trailing) pkt.hdr.len cli = true
  · have hin : nameCopyInBounds pkt trailing = true := by
      simp only [nameCopyInBounds, Bool.and_eq_true, decide_eq_true_eq]
      exact hname hauth
    by_cases hopen :
        D.fopen_nc (requestFileName pkt trailing) modeRb cli.userID cli.appID = true
    · refine ⟨1, ?_, ?_, ?_, Or.inl rfl, Or.inl hauth, ?_⟩
      · simp [HandleFileExists, hauth, hin, hopen, sendExistsResult_trace, List.filter,
          ServerEvent.isSend]
      · intro sock
        simp [HandleFileExists, hauth, hin, hopen, sendExistsResult_trace]
      · simp only [requestFileName] at hopen
        simp [hauth, hopen]
      · simp only [HandleFileExists, hauth, hin, hopen, if_true, sendExistsResult_run]
    · refine ⟨0, ?_, ?_, ?_, Or.inr rfl, Or.inl hauth, ?_⟩
      · simp [HandleFileExists, hauth, hin, hopen, sendExistsResult_trace, List.filter,
          ServerEvent.isSend]
      · intro sock
        simp [HandleFileExists, hauth, hin, hopen, sendExistsResult_trace]
      · simp only [requestFileName] at hopen
        simp [hauth, hopen]
      · simp only [HandleFileExists, hauth, hin, hopen, if_true, if_false,
          Bool.false_eq_true, sendExistsResult_run]
  · refine ⟨0, ?_, ?_, ?_, Or.inr rfl, Or.inr ⟨rfl, ?_⟩, ?_⟩
    · simp [HandleFileExists, hauth, sendExistsResult_trace, List.filter,
        ServerEvent.isSend]
    · intro sock
      simp [HandleFileExists, hauth, sendExistsResult_trace]
    · simp [hauth]
    · intro filename mode userID appID
      simp [HandleFileExists, hauth, sendExistsResult_trace]
    · simp only [HandleFileExists, hauth, if_false, Bool.false_eq_true,
        sendExistsResult_run]

/-- C11 (the code at a request with an over-long name length): for every
request that `AuthenticateClientPacket` accepts and whose name-length field is
4294967295, whatever the helpers, the client context and the bytes received,
`HandleFileExists` faults while copying the name (`new char[cubFileName + 1]`
allocates 0 bytes and `memcpy` copies 4294967295): it makes no call at all, in
particular no `send`, and does not return. -/
theorem HandleFileExists_overlong_name_faults (P : Protocol) (D : ServerDeps)
    (cli : Client) (pkt : Packet_File_Generic_Path) (trailing : Bytes) (env : HandlerEnv)
    (hauth : D.AuthenticateClientPacket pkt.hdr (pkt.body ++ trailing) pkt.hdr.len cli = true)
    (hlen : pkt.cubFileName = 4294967295) :
    HandleFileExists P D cli pkt trailing env = ⟨[], HandlerRun.faulted⟩ ∧
    (HandleFileExists P D cli pkt trailing env).trace.filter ServerEvent.isSend = [] := by
  have hout : nameCopyInBounds pkt trailing = false := by
    simp [nameCopyInBounds, hlen]
  have h : HandleFileExists P D cli pkt trailing env = ⟨[], HandlerRun.faulted⟩ := by
    simp only [HandleFileExists, hauth, hout, if_true, if_false, Bool.false_eq_true]
  exact ⟨h, by rw [h]; rfl⟩

/-- C11 at a concrete request: a client holding the session key signs an
existence request for a five-byte name that declares a name length of
4294967295; the file exists in the namespace of the client. -/
theorem HandleFileExists_overlong_name_faults_witness :
    (specServerDeps toyHmac [(exampleName, 1, 2)]).AuthenticateClientPacket
        exampleOverlongNameRequest.hdr (exampleOverlongNameRequest.body ++ exampleName)
        exampleOverlongNameRequest.hdr.len exampleClient = true ∧
    HandleFileExists exampleProtocol (specServerDeps toyHmac [(exampleName, 1, 2)])
        exampleClient exampleOverlongNameRequest exampleName exampleHandlerEnv
      = ⟨[], HandlerRun.faulted⟩ :=
  ⟨by decide,
   (HandleFileExists_overlong_name_faults exampleProtocol
      (specServerDeps toyHmac [(exampleName, 1, 2)]) exampleClient
      exampleOverlongNameRequest exampleName exampleHandlerEnv (by decide) rfl).1⟩

theorem HandleFileExists_missing_file :
    (FileExists exampleProtocol toyHmac (exampleSession NCState.Operation) true exampleName
        { send1 := 44, send2 := 5, recvRes := 41, pkt := exampleExistsResult 0,
          beyond := [] }).trace
      = [NetEvent.send 7 (exampleExistsRequest.hdr.bytes ++ exampleExistsRequest.body),
         NetEvent.send 7 exampleName,
         NetEvent.recv 7 sizeof_Packet_General_Result] ∧
    HandleFileExists exampleProtocol (specServerDeps toyHmac []) exampleClient
        exampleExistsRequest exampleName exampleHandlerEnv
      = ⟨[ServerEvent.fopen_nc exampleName modeRb 1 2,
          ServerEvent.send 9
            ((exampleExistsResult 0).hdr.bytes ++ (exampleExistsResult 0).body) 41],
         HandlerRun.returned⟩ ∧
    (FileExists exampleProtocol toyHmac (exampleSession NCState.Operation) true exampleName
        { send1 := 44, send2 := 5, recvRes := 41, pkt := exampleExistsResult 0,
          beyond := [] }).run
      = Run.done NetCloudResult.OK (exampleSession NCState.Operation) false := by
  refine ⟨by decide, by decide, by decide⟩

theorem HandleFileExists_existing_and_forged :
    HandleFileExists exampleProtocol (specServerDeps toyHmac [(exampleName, 1, 2)])
        exampleClient exampleExistsRequest exampleName exampleHandlerEnv
      = ⟨[ServerEvent.fopen_nc exampleName modeRb 1 2, ServerEvent.fclose,
          ServerEvent.send 9
            ((exampleExistsResult 1).hdr.bytes ++ (exampleExistsResult 1).body) 41],
         HandlerRun.returned⟩ ∧
    HandleFileExists exampleProtocol (specServerDeps toyHmac [(exampleName, 1, 2)])
        exampleClient exampleForgedRequest exampleName exampleHandlerEnv
      = ⟨[ServerEvent.send 9
            ((exampleExistsResult 0).hdr.bytes ++ (exampleExistsResult 0).body) 41],
         HandlerRun.returned⟩ ∧
    HandleFileExists exampleProtocol (specServerDeps toyHmac [(exampleName, 3, 2)])
        exampleClient exampleExistsRequest exampleName exampleHandlerEnv
      = ⟨[ServerEvent.fopen_nc exampleName modeRb 1 2,
          ServerEvent.send 9
            ((exampleExistsResult 0).hdr.bytes ++ (exampleExistsResult 0).body) 41],
         HandlerRun.returned⟩ := by
  refine ⟨by decide, by decide, by decide⟩

end NetCloud
